import Mathlib

/-!
A verification development for the `chrono` Go package, which wraps the
standard-library `time.Time` in three restricted value types: `Date`
(calendar date only), `Time` (time of day only) and `DateTime` (full
fidelity).  The Go standard library's `time.Time` is modelled shallowly by
`StdTime`, a record of normalized wall-clock fields plus a zone offset in
seconds; locations (`*time.Location`) are modelled as fixed offsets with
`time.UTC` being offset 0.  All machine integers are modelled as `Int`
(Go `int`/`int64` arithmetic never overflows in the ranges exercised
here), except that the 32-bit truncation in `Date`'s binary codec is made
explicit with `% 4294967296`.  Error values are modelled as `Except` with
the Go error strings reproduced up to punctuation.
-/

namespace Chrono

/-! ## Calendar arithmetic (model of the `time` package's normalization) -/

/-- Proleptic-Gregorian leap-year test, as used by the Go time package. -/
def isLeap (y : Int) : Bool :=
  y % 4 == 0 && (y % 100 != 0 || y % 400 == 0)

/-- Number of days in month `m` of year `y` (for `m` in 1..12; any other
`m` falls into the 30-day branch and is never used). -/
def daysInMonth (y m : Int) : Int :=
  if m = 2 then (if isLeap y then 29 else 28)
  else if m = 1 ∨ m = 3 ∨ m = 5 ∨ m = 7 ∨ m = 8 ∨ m = 10 ∨ m = 12 then 31
  else 30

/-- Month normalization of `time.Date`: fold an arbitrary month number into
1..12, carrying whole years.  Matches Go's `norm(year, m, 12)` on the
zero-based month. -/
def normMonth (y m : Int) : Int × Int :=
  (y + (m - 1) / 12, (m - 1) % 12 + 1)

/-- Carry an over-long day-of-month forward through the months (for day
values already at least 1). -/
def monthCarryGo : Nat → Int → Int → Int → Int × Int × Int
  | 0, y, m, d => (y, m, d)
  | fuel + 1, y, m, d =>
    if daysInMonth y m < d then
      if m = 12 then monthCarryGo fuel (y + 1) 1 (d - 31)
      else monthCarryGo fuel y (m + 1) (d - daysInMonth y m)
    else (y, m, d)

/-- Borrow a non-positive day-of-month backward through the months. -/
def monthBorrowGo : Nat → Int → Int → Int → Int × Int × Int
  | 0, y, m, d => (y, m, d)
  | fuel + 1, y, m, d =>
    if d < 1 then
      if m = 1 then monthBorrowGo fuel (y - 1) 12 (d + 31)
      else monthBorrowGo fuel y (m - 1) (d + daysInMonth y (m - 1))
    else (y, m, d)

/-- The number of days from day 1 of month `m` of year `y` to day 1 of
the same month of year `y + 1`: 366 exactly when the February spanned in
between (of year `y` for January/February, of year `y + 1` otherwise) is
in a leap year. -/
def yearLength (y m : Int) : Int :=
  if isLeap (if m ≤ 2 then y else y + 1) then 366 else 365

/-- Stride whole years while the day count exceeds one year. -/
def yearGo : Nat → Int → Int → Int → Int × Int
  | 0, y, _, d => (y, d)
  | fuel + 1, y, m, d =>
    if 366 < d then yearGo fuel (y + 1) m (d - yearLength y m) else (y, d)

/-- Day normalization: fold an arbitrary day-of-month (for `m` already in
1..12) into the calendar, exactly as `time.Date`'s absolute-day
arithmetic does.  Large inputs are reduced in stages — whole 400-year
Gregorian cycles of 146097 days, then whole years, then months — which
computes the same unique normalized date as stepping day by day, with
recursion depth proportional to the number of years spanned rather than
days. -/
def normDay (y m d : Int) : Int × Int × Int :=
  if 0 < d then
    let yd := yearGo (d.toNat / 365 + 1) y m d
    monthCarryGo 14 yd.1 m yd.2
  else if -400 < d then
    monthBorrowGo 16 y m d
  else
    let k := (1 - d) / 146097 + 1
    let d2 := d + 146097 * k
    let yd := yearGo (d2.toNat / 365 + 1) (y - 400 * k) m d2
    monthCarryGo 14 yd.1 m yd.2

/-- The month after `(y, m)` in the calendar, for `m` in 1..12. -/
def nextMonth (y m : Int) : Int × Int :=
  if m = 12 then (y + 1, 1) else (y, m + 1)

/-- The month before `(y, m)` in the calendar, for `m` in 1..12. -/
def prevMonth (y m : Int) : Int × Int :=
  if m = 1 then (y - 1, 12) else (y, m - 1)

/-- Days from civil date (proleptic Gregorian), relative to the Unix epoch
1970-01-01; the standard exact conversion underlying `time.Time`'s
absolute-time representation.  Uses Lean's Euclidean `Int` division, which
is floor division for the positive divisors appearing here. -/
def daysFromCivil (y m d : Int) : Int :=
  let y2 := if m ≤ 2 then y - 1 else y
  let mp := if m ≤ 2 then m + 9 else m - 3
  let era := y2 / 400
  let yoe := y2 - era * 400
  let doy := (153 * mp + 2) / 5 + d - 1
  let doe := yoe * 365 + yoe / 4 - yoe / 100 + doy
  era * 146097 + doe - 719468

/-! ## The `time.Time` model -/

/-- Shallow model of Go's `time.Time`: the normalized wall-clock fields
(year, month 1..12, day 1..daysInMonth, hour 0..23, minute/second 0..59,
nanosecond 0..999999999) together with the zone offset east of UTC in
seconds.  A `*time.Location` is modelled as its fixed offset; `time.UTC`
is offset 0.  Values produced by the constructors below always carry
normalized fields, mirroring `time.Time`'s absolute-time representation. -/
structure StdTime where
  year : Int
  month : Int
  day : Int
  hour : Int
  minute : Int
  second : Int
  nsec : Int
  offset : Int
deriving DecidableEq

/-- The clock fields are in their normal ranges. -/
def StdTime.ValidClock (t : StdTime) : Prop :=
  0 ≤ t.hour ∧ t.hour ≤ 23 ∧ 0 ≤ t.minute ∧ t.minute ≤ 59 ∧
  0 ≤ t.second ∧ t.second ≤ 59 ∧ 0 ≤ t.nsec ∧ t.nsec ≤ 999999999

/-- The calendar fields are in their normal ranges. -/
def StdTime.ValidDate (t : StdTime) : Prop :=
  1 ≤ t.month ∧ t.month ≤ 12 ∧ 1 ≤ t.day ∧ t.day ≤ daysInMonth t.year t.month

/-- Full wall-clock well-formedness, an invariant of every reachable
`time.Time` value. -/
def StdTime.Valid (t : StdTime) : Prop := t.ValidDate ∧ t.ValidClock

instance (t : StdTime) : Decidable t.ValidClock := by
  unfold StdTime.ValidClock; infer_instance

instance (t : StdTime) : Decidable t.ValidDate := by
  unfold StdTime.ValidDate; infer_instance

instance (t : StdTime) : Decidable t.Valid := by
  unfold StdTime.Valid; infer_instance

/-- Model of `time.Date(year, month, day, hour, min, sec, nsec, loc)`: all
arguments may be outside their usual ranges and are normalized, exactly as
the Go function normalizes them (nsec into sec into min into hour into
day, month into year, then the day carried through the month lengths). -/
def stdDate (year month day hour minute second nsec offset : Int) : StdTime :=
  let s1 := second + nsec / 1000000000
  let ns := nsec % 1000000000
  let m1 := minute + s1 / 60
  let ss := s1 % 60
  let h1 := hour + m1 / 60
  let mm := m1 % 60
  let d1 := day + h1 / 24
  let hh := h1 % 24
  let ym := normMonth year month
  let ymd := normDay ym.1 ym.2 d1
  ⟨ymd.1, ymd.2.1, ymd.2.2, hh, mm, ss, ns, offset⟩

/-- The zero `time.Time{}`: January 1, year 1, 00:00:00 UTC. -/
def StdTime.zero : StdTime := ⟨1, 1, 1, 0, 0, 0, 0, 0⟩

/-- Nanoseconds since the Unix epoch of the moment a `StdTime` denotes.
Two `time.Time` values are `Equal`, `Before`, `After` according to this
absolute instant. -/
def StdTime.instant (t : StdTime) : Int :=
  ((daysFromCivil t.year t.month t.day) * 86400 +
    t.hour * 3600 + t.minute * 60 + t.second - t.offset) * 1000000000 + t.nsec

/-- Build the `StdTime` for a given absolute instant (nanoseconds since
the Unix epoch) expressed in a zone with the given offset, by splitting
the zone-local wall time into days and time of day. -/
def StdTime.fromInstant (nanos offset : Int) : StdTime :=
  let wall := nanos + offset * 1000000000
  let days := wall / 86400000000000
  let rem := wall % 86400000000000
  let ymd := normDay 1970 1 (1 + days)
  ⟨ymd.1, ymd.2.1, ymd.2.2,
    rem / 3600000000000, rem / 60000000000 % 60, rem / 1000000000 % 60,
    rem % 1000000000, offset⟩

/-- Model of `time.Time.AddDate`: per the Go implementation, it is
`time.Date` on the shifted calendar fields with the clock and location
kept. -/
def StdTime.AddDate (t : StdTime) (years months days : Int) : StdTime :=
  stdDate (t.year + years) (t.month + months) (t.day + days)
    t.hour t.minute t.second t.nsec t.offset

/-- Model of `time.Time.Equal`: same absolute instant. -/
def StdTime.TimeEqual (t u : StdTime) : Bool := t.instant == u.instant

/-- Model of `time.Time.Before`. -/
def StdTime.TimeBefore (t u : StdTime) : Bool := t.instant < u.instant

/-- Model of `time.Time.After`. -/
def StdTime.TimeAfter (t u : StdTime) : Bool := u.instant < t.instant

/-- Model of `time.Time.In`: same instant, re-expressed at a new offset. -/
def StdTime.In (t : StdTime) (offset : Int) : StdTime :=
  StdTime.fromInstant t.instant offset

/-- Model of `time.Unix(sec, nsec)` followed by `.UTC()`. -/
def stdUnixUTC (sec nsec : Int) : StdTime :=
  StdTime.fromInstant (sec * 1000000000 + nsec) 0

/-! ## Text formatting and parsing

Models of Go's `time.Time.Format` and `time.Parse` specialized to the five
fixed layout strings the package uses.  Text is modelled as `List Char`.
Numeric fields are printed zero-padded at their layout width; the
formatters are exact for field values that fit the width (years 0..9999
for the `2006` verb), which is the domain the round-trip theorems quantify
over.  Parsing demands the exact field widths, validates calendar and
clock ranges as Go's `Parse` does, and when the layout carries a zone
the parsed offset is used for the result (Go attaches a fixed zone built
from the parsed offset, and `ParseInLocation`'s location argument does not
affect a fully zone-qualified layout). -/

/-- The decimal digit character for `n % 10`. -/
def digitChar (n : Nat) : Char := Char.ofNat (48 + n % 10)

/-- The value of a decimal digit character, if it is one. -/
def digitVal (c : Char) : Option Nat :=
  if 48 ≤ c.toNat ∧ c.toNat ≤ 57 then some (c.toNat - 48) else none

/-- Two-digit zero-padded decimal print (exact for 0..99). -/
def pad2 (n : Nat) : List Char := [digitChar (n / 10 % 10), digitChar (n % 10)]

/-- Four-digit zero-padded decimal print (exact for 0..9999). -/
def pad4 (n : Nat) : List Char :=
  [digitChar (n / 1000 % 10), digitChar (n / 100 % 10),
   digitChar (n / 10 % 10), digitChar (n % 10)]

/-- Fixed-width big-endian decimal digit string of `n` (low `w` digits). -/
def natDigitsFix : Nat → Nat → List Char
  | 0, _ => []
  | w + 1, n => natDigitsFix w (n / 10) ++ [digitChar (n % 10)]

/-- Numeric value of a digit string (most significant first). -/
def digitsVal (l : List Char) : Nat :=
  l.foldl (fun a c => 10 * a + (digitVal c).getD 0) 0

/-- Remove trailing `0` characters, as Go's `9`-verb fraction formatting
does. -/
def dropTrailZeros (l : List Char) : List Char :=
  (l.reverse.dropWhile (fun c => c = '0')).reverse

/-- Fractional-second print for a `.9...9` layout verb of width `w`:
`w` digits of the fraction, trailing zeros removed, the whole group
(dot included) omitted when zero.  `frac` is the fraction scaled to
`w` digits (`nsec/1000` for `w = 6`, `nsec` for `w = 9`). -/
def formatFracW (w : Nat) (frac : Nat) : List Char :=
  let t := dropTrailZeros (natDigitsFix w frac)
  if t.isEmpty then [] else '.' :: t

/-- Zone suffix for the `Z07:00` verb: `Z` when the offset is zero,
otherwise a sign and `hh:mm` computed from the offset in minutes
(offset seconds are dropped, as Go drops them). -/
def formatZoneColon (off : Int) : List Char :=
  if off = 0 then ['Z']
  else
    let sign := if off < 0 then '-' else '+'
    let mins := off.natAbs / 60
    sign :: (pad2 (mins / 60) ++ ':' :: pad2 (mins % 60))

/-- Zone suffix for the `-07` verb: always a sign, then the offset hours. -/
def formatZoneHH (off : Int) : List Char :=
  (if off < 0 then '-' else '+') :: pad2 (off.natAbs / 3600)

/-- The `15:04:05` clock part. -/
def formatClock (t : StdTime) : List Char :=
  pad2 t.hour.toNat ++ ':' :: pad2 t.minute.toNat ++ ':' :: pad2 t.second.toNat

/-- The `2006-01-02` date part (layout `dateLayout`). -/
def formatDateLayout (t : StdTime) : List Char :=
  pad4 t.year.toNat ++ '-' :: pad2 t.month.toNat ++ '-' :: pad2 t.day.toNat

/-- Layout `15:04:05Z07:00` (`timeLayout`). -/
def formatTimeLayout (t : StdTime) : List Char :=
  formatClock t ++ formatZoneColon t.offset

/-- Layout `15:04:05.999999-07` (`TimeSQLLayout`). -/
def formatTimeSQL (t : StdTime) : List Char :=
  formatClock t ++ formatFracW 6 (t.nsec / 1000).toNat ++ formatZoneHH t.offset

/-- Layout `2006-01-02 15:04:05-07` (`dateTimeSQLLayout`). -/
def formatDateTimeSQL (t : StdTime) : List Char :=
  formatDateLayout t ++ ' ' :: formatClock t ++ formatZoneHH t.offset

/-- Layout `2006-01-02T15:04:05.999999999Z07:00` (RFC3339 with
nanoseconds, used by `time.Time.MarshalText`/`MarshalJSON`). -/
def formatRFC3339Nano (t : StdTime) : List Char :=
  formatDateLayout t ++ 'T' :: formatClock t ++
    formatFracW 9 t.nsec.toNat ++ formatZoneColon t.offset

/-- Read one expected literal character. -/
def parseChar (c : Char) : List Char → Option (List Char)
  | x :: rest => if x = c then some rest else none
  | _ => none

/-- Read exactly two decimal digits. -/
def parse2 : List Char → Option (Int × List Char)
  | a :: b :: rest =>
    match digitVal a, digitVal b with
    | some x, some y => some (((10 * x + y : Nat) : Int), rest)
    | _, _ => none
  | _ => none

/-- Read exactly four decimal digits. -/
def parse4 : List Char → Option (Int × List Char)
  | a :: b :: c :: d :: rest =>
    match digitVal a, digitVal b, digitVal c, digitVal d with
    | some x, some y, some z, some w =>
      some (((1000 * x + 100 * y + 10 * z + w : Nat) : Int), rest)
    | _, _, _, _ => none
  | _ => none

/-- Longest prefix of decimal digits. -/
def takeDigits : List Char → List Char × List Char
  | [] => ([], [])
  | c :: rest =>
    match digitVal c with
    | some _ => let p := takeDigits rest; (c :: p.1, p.2)
    | none => ([], c :: rest)

/-- Every character is a decimal digit. -/
def allDigits (l : List Char) : Prop := ∀ c ∈ l, (digitVal c).isSome

/-- The input does not continue with a digit, so greedy digit reading
stops at its head. -/
def stopsDigits (l : List Char) : Prop :=
  match l with
  | [] => True
  | c :: _ => digitVal c = none

/-- The input does not continue with a fraction: no dot and no digit at
its head. -/
def stopsFrac (l : List Char) : Prop :=
  match l with
  | [] => True
  | c :: _ => ¬ c = '.' ∧ digitVal c = none

/-- Optional fractional second: a dot followed by 1..9 digits, scaled to
nanoseconds; absent means zero. -/
def parseFracOpt (l : List Char) : Option (Int × List Char) :=
  match l with
  | c :: rest =>
    if c = '.' then
      let p := takeDigits rest
      if p.1.length = 0 ∨ 9 < p.1.length then none
      else some (((digitsVal p.1 * 10 ^ (9 - p.1.length) : Nat) : Int), p.2)
    else some (0, c :: rest)
  | [] => some (0, [])

/-- Zone of the `Z07:00` verb: `Z`, or a sign and `hh:mm`. -/
def parseZoneColon (l : List Char) : Option (Int × List Char) :=
  match l with
  | c :: rest =>
    if c = 'Z' then some (0, rest)
    else if c = '+' ∨ c = '-' then
      (parse2 rest).bind fun p1 =>
      (parseChar ':' p1.2).bind fun r2 =>
      (parse2 r2).bind fun p2 =>
      some ((if c = '-' then -(p1.1 * 3600 + p2.1 * 60)
             else p1.1 * 3600 + p2.1 * 60), p2.2)
    else none
  | [] => none

/-- Zone of the `-07` verb: a sign and two hour digits. -/
def parseZoneHH (l : List Char) : Option (Int × List Char) :=
  match l with
  | c :: rest =>
    if c = '+' ∨ c = '-' then
      (parse2 rest).bind fun p1 =>
      some ((if c = '-' then -(p1.1 * 3600) else p1.1 * 3600), p1.2)
    else none
  | [] => none

/-- Fields of the `2006-01-02` part: year, month, day. -/
def parseDateFields (l : List Char) : Option ((Int × Int × Int) × List Char) :=
  (parse4 l).bind fun p1 =>
  (parseChar '-' p1.2).bind fun r2 =>
  (parse2 r2).bind fun p2 =>
  (parseChar '-' p2.2).bind fun r4 =>
  (parse2 r4).bind fun p3 =>
  some ((p1.1, p2.1, p3.1), p3.2)

/-- Fields of the `15:04:05` part: hour, minute, second. -/
def parseClockFields (l : List Char) : Option ((Int × Int × Int) × List Char) :=
  (parse2 l).bind fun p1 =>
  (parseChar ':' p1.2).bind fun r2 =>
  (parse2 r2).bind fun p2 =>
  (parseChar ':' p2.2).bind fun r4 =>
  (parse2 r4).bind fun p3 =>
  some ((p1.1, p2.1, p3.1), p3.2)

/-- The range validation `time.Parse` applies to parsed fields. -/
def fieldsInRange (y m d hh mi ss : Int) : Prop :=
  1 ≤ m ∧ m ≤ 12 ∧ 1 ≤ d ∧ d ≤ daysInMonth y m ∧
  0 ≤ hh ∧ hh ≤ 23 ∧ 0 ≤ mi ∧ mi ≤ 59 ∧ 0 ≤ ss ∧ ss ≤ 59

instance (y m d hh mi ss : Int) : Decidable (fieldsInRange y m d hh mi ss) := by
  unfold fieldsInRange; infer_instance

/-- `time.ParseInLocation("2006-01-02", s, time.UTC)`: a bare date, all
clock fields zero, UTC. -/
def parseDateLayout (l : List Char) : Option StdTime :=
  (parseDateFields l).bind fun p =>
  if p.2 = [] ∧ fieldsInRange p.1.1 p.1.2.1 p.1.2.2 0 0 0 then
    some ⟨p.1.1, p.1.2.1, p.1.2.2, 0, 0, 0, 0, 0⟩
  else none

/-- `time.Parse("15:04:05Z07:00", s)`: a zone-qualified time of day; the
missing calendar fields default to January 1 of year 0. -/
def parseTimeLayout (l : List Char) : Option StdTime :=
  (parseClockFields l).bind fun p =>
  (parseZoneColon p.2).bind fun z =>
  if z.2 = [] ∧ fieldsInRange 0 1 1 p.1.1 p.1.2.1 p.1.2.2 then
    some ⟨0, 1, 1, p.1.1, p.1.2.1, p.1.2.2, 0, z.1⟩
  else none

/-- `time.Parse("15:04:05.999999-07", s)` (`TimeSQLLayout`). -/
def parseTimeSQL (l : List Char) : Option StdTime :=
  (parseClockFields l).bind fun p =>
  (parseFracOpt p.2).bind fun f =>
  (parseZoneHH f.2).bind fun z =>
  if z.2 = [] ∧ fieldsInRange 0 1 1 p.1.1 p.1.2.1 p.1.2.2 then
    some ⟨0, 1, 1, p.1.1, p.1.2.1, p.1.2.2, f.1, z.1⟩
  else none

/-- `time.Parse("2006-01-02 15:04:05-07", s)` (`dateTimeSQLLayout`). -/
def parseDateTimeSQL (l : List Char) : Option StdTime :=
  (parseDateFields l).bind fun p =>
  (parseChar ' ' p.2).bind fun r2 =>
  (parseClockFields r2).bind fun q =>
  (parseZoneHH q.2).bind fun z =>
  if z.2 = [] ∧ fieldsInRange p.1.1 p.1.2.1 p.1.2.2 q.1.1 q.1.2.1 q.1.2.2 then
    some ⟨p.1.1, p.1.2.1, p.1.2.2, q.1.1, q.1.2.1, q.1.2.2, 0, z.1⟩
  else none

/-- `time.Parse(time.RFC3339, s)`: date, `T`, clock, optional fraction,
`Z`-or-colon zone. -/
def parseRFC3339 (l : List Char) : Option StdTime :=
  (parseDateFields l).bind fun p =>
  (parseChar 'T' p.2).bind fun r2 =>
  (parseClockFields r2).bind fun q =>
  (parseFracOpt q.2).bind fun f =>
  (parseZoneColon f.2).bind fun z =>
  if z.2 = [] ∧ fieldsInRange p.1.1 p.1.2.1 p.1.2.2 q.1.1 q.1.2.1 q.1.2.2 then
    some ⟨p.1.1, p.1.2.1, p.1.2.2, q.1.1, q.1.2.1, q.1.2.2, f.1, z.1⟩
  else none

/-- Run a parser on input enclosed in double quotes, as the quoted JSON
layouts demand. -/
def parseQuoted (p : List Char → Option StdTime) (l : List Char) : Option StdTime :=
  match l with
  | c :: rest =>
    if c = '"' then
      match rest.reverse with
      | e :: revBody => if e = '"' then p revBody.reverse else none
      | [] => none
    else none
  | [] => none

/-- Go `error` values are modelled as strings. -/
abbrev GoError := String

/-! ## SQL driver values -/

/-- The runtime kinds a value handed to `Scan` can have.  A Go `float64`
payload is modelled by its `int64` truncation toward zero, since each
`Scan` immediately converts it with `int64(v)`; `other` stands for any
unsupported dynamic type, carrying the name `%T` would print. -/
inductive SQLValue where
  | int64 (v : Int)
  | float64 (v : Int)
  | str (s : List Char)
  | bytes (b : List Char)
  | stdtime (t : StdTime)
  | null
  | other (typeName : String)
deriving DecidableEq

/-- The text `%T` prints for a `Scan` input, used in scan-error messages. -/
def SQLValue.goTypeName : SQLValue → String
  | .int64 _ => "int64"
  | .float64 _ => "float64"
  | .str _ => "string"
  | .bytes _ => "[]uint8"
  | .stdtime _ => "time.Time"
  | .null => "<nil>"
  | .other n => n

/-! ## The `Date` type (`date.go`) -/

/-- `chrono.Date`: a calendar date, wrapping a `time.Time`. -/
structure Date where
  t : StdTime
deriving DecidableEq

/-- `NewDate` constructs a date from its components:
`time.Date(year, month, day, 0, 0, 0, 0, time.UTC)`. -/
def NewDate (year month day : Int) : Date :=
  ⟨stdDate year month day 0 0 0 0 0⟩

/-- `DateFromStdTime` projects a `time.Time` to its date, zeroing the
clock and pinning UTC. -/
def DateFromStdTime (t : StdTime) : Date :=
  ⟨stdDate t.year t.month t.day 0 0 0 0 0⟩

/-- `DateFromUnix` converts a Unix timestamp in seconds to a date. -/
def DateFromUnix (sec nsec : Int) : Date :=
  DateFromStdTime (stdUnixUTC sec nsec)

/-- Error text of `DateFromString` (up to the wrapped cause). -/
def failedParseDate : String := "failed to parse date"

/-- `DateFromString` parses a date from the RFC3339 full-date layout. -/
def DateFromString (s : List Char) : Except GoError Date :=
  match parseDateLayout s with
  | some t => .ok (DateFromStdTime t)
  | none => .error failedParseDate

/-- `Date.Year`. -/
def Date.Year (d : Date) : Int := d.t.year

/-- `Date.Month`. -/
def Date.Month (d : Date) : Int := d.t.month

/-- `Date.Day`. -/
def Date.Day (d : Date) : Int := d.t.day

/-- `Date.Date` returns the date components. -/
def Date.DateParts (d : Date) : Int × Int × Int := (d.t.year, d.t.month, d.t.day)

/-- `Date.Equal`. -/
def Date.Equal (d rhs : Date) : Bool := d.t.TimeEqual rhs.t

/-- `Date.AddDate` delegates to `time.Time.AddDate` and re-projects. -/
def Date.AddDate (d : Date) (years months days : Int) : Date :=
  DateFromStdTime (d.t.AddDate years months days)

/-- `Date.PreviousMonthLastDay`: day 0 of the current month, which wraps
to the last day of the previous month. -/
def Date.PreviousMonthLastDay (d : Date) : Date :=
  NewDate d.t.year d.t.month 0

/-- `Date.AddMonthsNoOverflow`: add months, clamping to the target
month's last day when the naive addition overflows into the next month. -/
def Date.AddMonthsNoOverflow (d : Date) (m : Int) : Date :=
  let addedDate := d.AddDate 0 m 0
  if d.Day ≠ addedDate.Day then addedDate.PreviousMonthLastDay
  else addedDate

/-- The wall-clock invariant every reachable `Date` maintains: normalized
calendar fields, zero clock, UTC. -/
def Date.Inv (d : Date) : Prop :=
  d.t.ValidDate ∧ d.t.hour = 0 ∧ d.t.minute = 0 ∧ d.t.second = 0 ∧
    d.t.nsec = 0 ∧ d.t.offset = 0

instance (d : Date) : Decidable d.Inv := by
  unfold Date.Inv; infer_instance

/-- Truncation to Go's `uint32`. -/
def uint32ofInt (i : Int) : Nat := (i % 4294967296).toNat

/-- `binary.LittleEndian.PutUint32`: four little-endian bytes of a word. -/
def le32 (w : Nat) : List Nat :=
  [w % 256, w / 256 % 256, w / 65536 % 256, w / 16777216 % 256]

/-- `binary.LittleEndian.Uint32`: the word of four little-endian bytes. -/
def leWord (data : List Nat) : Nat :=
  data.getD 0 0 + data.getD 1 0 * 256 + data.getD 2 0 * 65536 +
    data.getD 3 0 * 16777216

/-- `Date.MarshalBinary`: pack year (bits 0..13), month (bits 14..17) and
day (bits 18..22) into a `uint32` with bitwise or, then store it as four
little-endian bytes. -/
def Date.MarshalBinary (d : Date) : List Nat :=
  le32 (uint32ofInt d.t.year |||
    (uint32ofInt d.t.month <<< 14) % 4294967296 |||
    (uint32ofInt d.t.day <<< 18) % 4294967296)

/-- Error text of `Date.UnmarshalBinary` on a wrong-sized input. -/
def failedUnmarshalDateBytes : String :=
  "failed to unmarshal date, incorrect number of bytes"

/-- `Date.UnmarshalBinary`: demand exactly four bytes, read a
little-endian `uint32`, unpack the three fields by shift and mask, and
rebuild the date with `NewDate`. -/
def Date.UnmarshalBinary (data : List Nat) : Except GoError Date :=
  if data.length ≠ 4 then .error failedUnmarshalDateBytes
  else
    .ok (NewDate (Int.ofNat (leWord data &&& 16383))
      (Int.ofNat ((leWord data >>> 14) &&& 15))
      (Int.ofNat ((leWord data >>> 18) &&& 31)))

/-- `Date.String`: the RFC3339 full-date. -/
def Date.String (d : Date) : List Char := formatDateLayout d.t

/-- `Date.MarshalText`. -/
def Date.MarshalText (d : Date) : List Char := d.String

/-- `Date.MarshalJSON`: the text form, double-quoted. -/
def Date.MarshalJSON (d : Date) : List Char := '"' :: (d.String ++ ['"'])

/-- Error text of the `Date` text/JSON decoders. -/
def failedUnmarshalDate : String := "failed to unmarshal date"

/-- `Date.UnmarshalText`. -/
def Date.UnmarshalText (data : List Char) : Except GoError Date :=
  match parseDateLayout data with
  | some t => .ok (DateFromStdTime t)
  | none => .error failedUnmarshalDate

/-- `Date.UnmarshalJSON`: like `UnmarshalText` but quoted. -/
def Date.UnmarshalJSON (data : List Char) : Except GoError Date :=
  match parseQuoted parseDateLayout data with
  | some t => .ok (DateFromStdTime t)
  | none => .error failedUnmarshalDate

/-- `Date.Value`: the canonical text layout (never errors). -/
def Date.Value (d : Date) : List Char := formatDateLayout d.t

/-- Error text of a failed string parse inside `Date.Scan`. -/
def failedScanDate : String := "failed to scan date"

/-- Scan-type error text builder for `Date.Scan`. -/
def failedScanTypeDate (n : String) : String :=
  "failed to scan type " ++ n ++ " into date"

/-- `Date.Scan`: nil resets to the zero value; int64/float64 are Unix
seconds; string/bytes parse the canonical layout; `time.Time` is
projected; anything else is a type error naming the dynamic type. -/
def Date.Scan (value : SQLValue) : Except GoError Date :=
  match value with
  | .null => .ok ⟨StdTime.zero⟩
  | .int64 v => .ok (DateFromUnix v 0)
  | .float64 v => .ok (DateFromUnix v 0)
  | .str s =>
    match parseDateLayout s with
    | some t => .ok ⟨t⟩
    | none => .error failedScanDate
  | .bytes s =>
    match parseDateLayout s with
    | some t => .ok ⟨t⟩
    | none => .error failedScanDate
  | .stdtime t => .ok (DateFromStdTime t)
  | .other n => .error (failedScanTypeDate n)

/-! ## The `Time` type (time of day) -/

/-- `chrono.Time`: a time of day, wrapping a `time.Time`. -/
structure Time where
  t : StdTime
deriving DecidableEq

/-- `NewTime` builds a time of day from components.  Note that the Go
source passes `time.UTC` to `time.Date`, leaving the `loc` parameter
unused. -/
def NewTime (hour minute second nsec : Int) (loc : Int) : Time :=
  ⟨stdDate 0 1 1 hour minute second nsec 0⟩

/-- `TimeFromStdTime` keeps the clock reading and location and pins the
calendar to January 1 of year 0. -/
def TimeFromStdTime (t : StdTime) : Time :=
  ⟨stdDate 0 1 1 t.hour t.minute t.second t.nsec t.offset⟩

/-- `TimeFromUnix`. -/
def TimeFromUnix (sec nsec : Int) : Time :=
  TimeFromStdTime (stdUnixUTC sec nsec)

/-- Error text of the `Time` parsing constructors. -/
def failedParseTime : String := "failed to parse time"

/-- `TimeFromString`: parse against the canonical `timeLayout`. -/
def TimeFromString (s : List Char) : Except GoError Time :=
  match parseTimeLayout s with
  | some t => .ok ⟨t⟩
  | none => .error failedParseTime

/-- `TimeFromStringLocation`: `ParseInLocation` with the canonical
layout; the layout is fully zone-qualified, so the location argument does
not influence the parsed value. -/
def TimeFromStringLocation (s : List Char) (loc : Int) : Except GoError Time :=
  match parseTimeLayout s with
  | some t => .ok ⟨t⟩
  | none => .error failedParseTime

/-- `TimeFromLayoutLocation`: the Go source calls
`time.ParseInLocation(timeLayout, str, loc)`, parsing against the fixed
canonical layout and leaving the `layout` parameter unused. -/
def TimeFromLayoutLocation (layout : List Char) (s : List Char) (loc : Int) :
    Except GoError Time :=
  match parseTimeLayout s with
  | some t => .ok ⟨t⟩
  | none => .error failedParseTime

/-- `Time.Hour`. -/
def Time.Hour (t : Time) : Int := t.t.hour

/-- `Time.Minute`. -/
def Time.Minute (t : Time) : Int := t.t.minute

/-- `Time.Second`. -/
def Time.Second (t : Time) : Int := t.t.second

/-- `Time.Nanosecond`. -/
def Time.Nanosecond (t : Time) : Int := t.t.nsec

/-- `Time.Zone` (the offset part; the zone name is not modelled). -/
def Time.ZoneOffset (t : Time) : Int := t.t.offset

/-- `Time.Equal`. -/
def Time.Equal (t rhs : Time) : Bool := t.t.TimeEqual rhs.t

/-- `Time.In`: the same instant in another location. -/
def Time.In (t : Time) (loc : Int) : Time := ⟨t.t.In loc⟩

/-- `Time.UTC`. -/
def Time.UTC (t : Time) : Time := ⟨t.t.In 0⟩

/-- The invariant of a time of day built by the projecting constructors:
the calendar is pinned to January 1 of year 0 and the clock fields are
normalized. -/
def Time.Inv (t : Time) : Prop :=
  t.t.year = 0 ∧ t.t.month = 1 ∧ t.t.day = 1 ∧ t.t.ValidClock

instance (t : Time) : Decidable t.Inv := by
  unfold Time.Inv; infer_instance

/-- `Time.String`: the canonical `timeLayout` text. -/
def Time.String (t : Time) : List Char := formatTimeLayout t.t

/-- `Time.MarshalText`. -/
def Time.MarshalText (t : Time) : List Char := t.String

/-- `Time.MarshalJSON`: `Format(quotedTimeLayout)`. -/
def Time.MarshalJSON (t : Time) : List Char := '"' :: (t.String ++ ['"'])

/-- Error text of the `Time` text/JSON decoders. -/
def failedUnmarshalTime : String := "failed to unmarshal time"

/-- `Time.UnmarshalText`. -/
def Time.UnmarshalText (data : List Char) : Except GoError Time :=
  match parseTimeLayout data with
  | some t => .ok ⟨t⟩
  | none => .error failedUnmarshalTime

/-- `Time.UnmarshalJSON`. -/
def Time.UnmarshalJSON (data : List Char) : Except GoError Time :=
  match parseQuoted parseTimeLayout data with
  | some t => .ok ⟨t⟩
  | none => .error failedUnmarshalTime

/-- `Time.Value`: format with `TimeSQLLayout` (never errors). -/
def Time.Value (t : Time) : List Char := formatTimeSQL t.t

/-- Error text of a failed string parse inside `Time.Scan`. -/
def failedScanTime : String := "failed to scan time"

/-- Scan-type error text builder for `Time.Scan`. -/
def failedScanTypeTime (n : String) : String :=
  "failed to scan type " ++ n ++ " into time"

/-- `Time.Scan`: nil resets to the zero value; int64/float64 are Unix
seconds; string/bytes parse `TimeSQLLayout`; `time.Time` is projected;
anything else is a type error naming the dynamic type. -/
def Time.Scan (value : SQLValue) : Except GoError Time :=
  match value with
  | .null => .ok ⟨StdTime.zero⟩
  | .int64 v => .ok (TimeFromUnix v 0)
  | .float64 v => .ok (TimeFromUnix v 0)
  | .str s =>
    match parseTimeSQL s with
    | some t => .ok ⟨t⟩
    | none => .error failedScanTime
  | .bytes s =>
    match parseTimeSQL s with
    | some t => .ok ⟨t⟩
    | none => .error failedScanTime
  | .stdtime t => .ok (TimeFromStdTime t)
  | .other n => .error (failedScanTypeTime n)

/-! ## The `DateTime` type (`date_time.go`) -/

/-- `chrono.DateTime`: a full date and time, wrapping a `time.Time`
transparently. -/
structure DateTime where
  t : StdTime
deriving DecidableEq

/-- `NewDateTime` from all components; here `loc` is honoured. -/
def NewDateTime (year month day hour minute second nsec : Int) (loc : Int) :
    DateTime :=
  ⟨stdDate year month day hour minute second nsec loc⟩

/-- `DateTimeFromStdTime` wraps a `time.Time` unchanged. -/
def DateTimeFromStdTime (t : StdTime) : DateTime := ⟨t⟩

/-- `DateTime.Equal`. -/
def DateTime.Equal (d rhs : DateTime) : Bool := d.t.TimeEqual rhs.t

/-- `DateTime.Year`. -/
def DateTime.Year (d : DateTime) : Int := d.t.year

/-- The wall-clock invariant of every reachable `DateTime`. -/
def DateTime.Inv (d : DateTime) : Prop := d.t.Valid

instance (d : DateTime) : Decidable d.Inv := by
  unfold DateTime.Inv; infer_instance

/-- Error text of `time.Time.MarshalJSON`/`MarshalText` for years outside
0..9999. -/
def yearOutsideRange : String := "year outside of range [0,9999]"

/-- `DateTime.MarshalJSON` forwards to `time.Time.MarshalJSON`: quoted
RFC3339 with nanoseconds, rejecting years outside 0..9999. -/
def DateTime.MarshalJSON (d : DateTime) : Except GoError (List Char) :=
  if d.t.year < 0 ∨ 10000 ≤ d.t.year then .error yearOutsideRange
  else .ok ('"' :: (formatRFC3339Nano d.t ++ ['"']))

/-- `DateTime.MarshalText` forwards to `time.Time.MarshalText`: RFC3339
with nanoseconds, rejecting years outside 0..9999. -/
def DateTime.MarshalText (d : DateTime) : Except GoError (List Char) :=
  if d.t.year < 0 ∨ 10000 ≤ d.t.year then .error yearOutsideRange
  else .ok (formatRFC3339Nano d.t)

/-- Error text of the `DateTime` text/JSON decoders. -/
def failedUnmarshalDateTime : String := "failed to unmarshal DateTime"

/-- `DateTime.UnmarshalText` forwards to `time.Time.UnmarshalText`
(RFC3339). -/
def DateTime.UnmarshalText (data : List Char) : Except GoError DateTime :=
  match parseRFC3339 data with
  | some t => .ok ⟨t⟩
  | none => .error failedUnmarshalDateTime

/-- `DateTime.UnmarshalJSON` forwards to `time.Time.UnmarshalJSON`
(quoted RFC3339). -/
def DateTime.UnmarshalJSON (data : List Char) : Except GoError DateTime :=
  match parseQuoted parseRFC3339 data with
  | some t => .ok ⟨t⟩
  | none => .error failedUnmarshalDateTime

/-- `DateTime.Value`: format with `dateTimeSQLLayout` (never errors). -/
def DateTime.Value (d : DateTime) : List Char := formatDateTimeSQL d.t

/-- Error text of a failed string parse inside `DateTime.Scan`. -/
def failedScanDateTime : String := "failed to scan datetime"

/-- Scan-type error text builder for `DateTime.Scan`. -/
def failedScanTypeDateTime (n : String) : String :=
  "failed to scan type " ++ n ++ " into datetime"

/-- `DateTime.Scan`: int64/float64 are Unix seconds (kept in UTC);
string/bytes parse `dateTimeSQLLayout`.  Unlike `Date.Scan` and
`Time.Scan` there is no nil special case and no `time.Time` case, so both
fall through to the type error naming the dynamic type. -/
def DateTime.Scan (value : SQLValue) : Except GoError DateTime :=
  match value with
  | .int64 v => .ok ⟨stdUnixUTC v 0⟩
  | .float64 v => .ok ⟨stdUnixUTC v 0⟩
  | .str s =>
    match parseDateTimeSQL s with
    | some t => .ok ⟨t⟩
    | none => .error failedScanDateTime
  | .bytes s =>
    match parseDateTimeSQL s with
    | some t => .ok ⟨t⟩
    | none => .error failedScanDateTime
  | v => .error (failedScanTypeDateTime v.goTypeName)

/-- A scan (or any fallible operation) succeeded with some value. -/
def scanOk {α : Type} (e : Except GoError α) : Prop := ∃ a, e = Except.ok a

/-! ## Calendar lemmas -/

theorem daysInMonth_bounds (y m : Int) :
    28 ≤ daysInMonth y m ∧ daysInMonth y m ≤ 31 := by
  unfold daysInMonth
  split <;> [split <;> omega; skip]
  split <;> omega

theorem normMonth_of_range (y m : Int) (h1 : 1 ≤ m) (h2 : m ≤ 12) :
    normMonth y m = (y, m) := by
  simp only [normMonth, Prod.mk.injEq]
  constructor <;> omega

theorem normMonth_month_range (y m : Int) :
    1 ≤ (normMonth y m).2 ∧ (normMonth y m).2 ≤ 12 := by
  show 1 ≤ (m - 1) % 12 + 1 ∧ (m - 1) % 12 + 1 ≤ 12
  omega

theorem monthCarryGo_succ (fuel : Nat) (y m d : Int) :
    monthCarryGo (fuel + 1) y m d =
      if daysInMonth y m < d then
        (if m = 12 then monthCarryGo fuel (y + 1) 1 (d - 31)
         else monthCarryGo fuel y (m + 1) (d - daysInMonth y m))
      else (y, m, d) := rfl

theorem monthBorrowGo_succ (fuel : Nat) (y m d : Int) :
    monthBorrowGo (fuel + 1) y m d =
      if d < 1 then
        (if m = 1 then monthBorrowGo fuel (y - 1) 12 (d + 31)
         else monthBorrowGo fuel y (m - 1) (d + daysInMonth y (m - 1)))
      else (y, m, d) := rfl

theorem monthCarryGo_of_range (fuel : Nat) (y m d : Int)
    (h1 : 1 ≤ d) (h2 : d ≤ daysInMonth y m) :
    monthCarryGo fuel y m d = (y, m, d) := by
  cases fuel with
  | zero => rfl
  | succ fuel =>
    simp only [monthCarryGo]
    rw [if_neg (by omega)]

theorem monthBorrowGo_of_range (fuel : Nat) (y m d : Int)
    (h1 : 1 ≤ d) (h2 : d ≤ daysInMonth y m) :
    monthBorrowGo fuel y m d = (y, m, d) := by
  cases fuel with
  | zero => rfl
  | succ fuel =>
    simp only [monthBorrowGo]
    rw [if_neg (by omega)]

theorem yearGo_of_small (fuel : Nat) (y m d : Int) (h : d ≤ 366) :
    yearGo fuel y m d = (y, d) := by
  cases fuel with
  | zero => rfl
  | succ fuel =>
    simp only [yearGo]
    rw [if_neg (by omega)]

theorem normDay_of_range (y m d : Int) (h1 : 1 ≤ d) (h2 : d ≤ daysInMonth y m) :
    normDay y m d = (y, m, d) := by
  have hb := daysInMonth_bounds y m
  unfold normDay
  rw [if_pos (by omega)]
  rw [yearGo_of_small _ _ _ _ (by omega)]
  exact monthCarryGo_of_range 14 y m d h1 h2

theorem normDay_carry (y m d : Int) (hm1 : 1 ≤ m) (hm2 : m ≤ 12)
    (h1 : daysInMonth y m < d) (h2 : d - daysInMonth y m ≤ 28) :
    normDay y m d = ((nextMonth y m).1, (nextMonth y m).2, d - daysInMonth y m) := by
  have hb := daysInMonth_bounds y m
  unfold normDay
  rw [if_pos (by omega)]
  rw [yearGo_of_small _ _ _ _ (by omega)]
  show monthCarryGo (13 + 1) y m d = _
  rw [monthCarryGo_succ, if_pos h1]
  unfold nextMonth
  by_cases hm12 : m = 12
  · subst hm12
    have hdim : daysInMonth y 12 = 31 := by norm_num [daysInMonth]
    rw [if_pos rfl, if_pos rfl, hdim]
    have hb2 := daysInMonth_bounds (y + 1) 1
    rw [hdim] at h1 h2
    exact monthCarryGo_of_range _ _ _ _ (by omega) (by omega)
  · rw [if_neg hm12, if_neg hm12]
    have hb2 := daysInMonth_bounds y (m + 1)
    exact monthCarryGo_of_range _ _ _ _ (by omega) (by omega)

theorem normDay_borrow (y m d : Int) (hm1 : 1 ≤ m) (hm2 : m ≤ 12)
    (h1 : d ≤ 0) (h2 : 1 - daysInMonth (prevMonth y m).1 (prevMonth y m).2 ≤ d) :
    normDay y m d = ((prevMonth y m).1, (prevMonth y m).2,
      d + daysInMonth (prevMonth y m).1 (prevMonth y m).2) := by
  unfold normDay
  rw [if_neg (by omega), if_pos (by
    have hbp := daysInMonth_bounds (prevMonth y m).1 (prevMonth y m).2
    omega)]
  show monthBorrowGo (15 + 1) y m d = _
  rw [monthBorrowGo_succ, if_pos (by omega)]
  unfold prevMonth at h2 ⊢
  by_cases hm1' : m = 1
  · subst hm1'
    have hdim : daysInMonth (y - 1) 12 = 31 := by norm_num [daysInMonth]
    have h2' : 1 - daysInMonth (y - 1) 12 ≤ d := by
      rw [if_pos rfl] at h2; exact h2
    rw [if_pos rfl, if_pos rfl, hdim]
    rw [hdim] at h2'
    exact monthBorrowGo_of_range _ _ _ _ (by omega) (by omega)
  · have h2' : 1 - daysInMonth y (m - 1) ≤ d := by
      rw [if_neg hm1'] at h2; exact h2
    have hb2 := daysInMonth_bounds y (m - 1)
    rw [if_neg hm1', if_neg hm1']
    exact monthBorrowGo_of_range _ _ _ _ (by omega) (by omega)


theorem stdDate_of_valid (year month day hour minute second nsec offset : Int)
    (hm1 : 1 ≤ month) (hm2 : month ≤ 12)
    (hd1 : 1 ≤ day) (hd2 : day ≤ daysInMonth year month)
    (hh1 : 0 ≤ hour) (hh2 : hour ≤ 23)
    (hmin1 : 0 ≤ minute) (hmin2 : minute ≤ 59)
    (hs1 : 0 ≤ second) (hs2 : second ≤ 59)
    (hn1 : 0 ≤ nsec) (hn2 : nsec ≤ 999999999) :
    stdDate year month day hour minute second nsec offset =
      ⟨year, month, day, hour, minute, second, nsec, offset⟩ := by
  unfold stdDate
  have e1 : nsec / 1000000000 = 0 := by omega
  have e2 : nsec % 1000000000 = nsec := by omega
  have e3 : second / 60 = 0 := by omega
  have e4 : second % 60 = second := by omega
  have e5 : minute / 60 = 0 := by omega
  have e6 : minute % 60 = minute := by omega
  have e7 : hour / 24 = 0 := by omega
  have e8 : hour % 24 = hour := by omega
  simp only [e1, e2, e3, e4, e5, e6, e7, e8, add_zero]
  rw [normMonth_of_range year month hm1 hm2]
  rw [normDay_of_range year month day hd1 hd2]

/-! ## Bit-packing lemmas for the binary codec -/

theorem shiftRight_lor_distrib (a b n : Nat) :
    (a ||| b) >>> n = a >>> n ||| b >>> n := by
  apply Nat.eq_of_testBit_eq
  intro i
  simp [Nat.testBit_lor, Nat.testBit_shiftRight]

theorem lor_lt_two_pow (n a b : Nat) (ha : a < 2 ^ n) (hb : b < 2 ^ n) :
    a ||| b < 2 ^ n := by
  have e1 : a >>> n = 0 := by
    rw [Nat.shiftRight_eq_div_pow]; exact Nat.div_eq_of_lt ha
  have e2 : b >>> n = 0 := by
    rw [Nat.shiftRight_eq_div_pow]; exact Nat.div_eq_of_lt hb
  have h : (a ||| b) >>> n = 0 := by
    rw [shiftRight_lor_distrib, e1, e2]; rfl
  rw [Nat.shiftRight_eq_div_pow] at h
  have hdm := Nat.div_add_mod (a ||| b) (2 ^ n)
  rw [h, Nat.mul_zero, Nat.zero_add] at hdm
  have hmlt : (a ||| b) % 2 ^ n < 2 ^ n :=
    Nat.mod_lt _ (Nat.pos_pow_of_pos n (by omega))
  omega

theorem lor_lt_two_pow_32 (a b : Nat) (ha : a < 4294967296) (hb : b < 4294967296) :
    a ||| b < 4294967296 := by
  have hp : (2 : Nat) ^ 32 = 4294967296 := by norm_num
  rw [← hp] at ha hb ⊢
  exact lor_lt_two_pow 32 a b ha hb

theorem mask14_lor (yn mn dn : Nat) :
    (yn ||| mn <<< 14 ||| dn <<< 18) &&& 16383 = yn &&& 16383 := by
  apply Nat.eq_of_testBit_eq
  intro i
  have h16383 : (16383 : Nat) = 2 ^ 14 - 1 := by norm_num
  simp only [h16383, Nat.testBit_land, Nat.testBit_lor, Nat.testBit_shiftLeft,
    Nat.testBit_two_pow_sub_one]
  rcases Nat.lt_or_ge i 14 with hi | hi
  · have e1 : decide (i ≥ 14) = false := by rw [decide_eq_false_iff_not]; omega
    have e2 : decide (i ≥ 18) = false := by rw [decide_eq_false_iff_not]; omega
    simp [e1, e2]
  · have e3 : decide (i < 14) = false := by rw [decide_eq_false_iff_not]; omega
    simp [e3]

theorem mask_shift14_lor (yn mn dn : Nat) (hm : mn < 16) :
    ((yn ||| mn <<< 14 ||| dn <<< 18) >>> 14) &&& 15 =
      ((yn >>> 14) &&& 15) ||| mn := by
  apply Nat.eq_of_testBit_eq
  intro i
  have h15 : (15 : Nat) = 2 ^ 4 - 1 := by norm_num
  simp only [h15, Nat.testBit_land, Nat.testBit_lor, Nat.testBit_shiftLeft,
    Nat.testBit_shiftRight, Nat.testBit_two_pow_sub_one]
  rcases Nat.lt_or_ge i 4 with hi | hi
  · have e1 : decide (14 + i ≥ 14) = true := by rw [decide_eq_true_eq]; omega
    have e2 : decide (14 + i ≥ 18) = false := by rw [decide_eq_false_iff_not]; omega
    have e3 : decide (i < 4) = true := by rw [decide_eq_true_eq]; omega
    have e4 : 14 + i - 14 = i := by omega
    simp only [e1, e2, e3, e4, Bool.true_and, Bool.false_and, Bool.and_true,
      Bool.or_false]
  · have e3 : decide (i < 4) = false := by rw [decide_eq_false_iff_not]; omega
    have e5 : mn.testBit i = false :=
      Nat.testBit_eq_false_of_lt
        (lt_of_lt_of_le hm (by
          calc (16 : Nat) = 2 ^ 4 := by norm_num
          _ ≤ 2 ^ i := Nat.pow_le_pow_right (by omega) hi))
    simp [e3, e5]

theorem mask_shift18_lor (yn mn dn : Nat) (hm : mn < 16) (hd : dn < 32) :
    ((yn ||| mn <<< 14 ||| dn <<< 18) >>> 18) &&& 31 =
      ((yn >>> 18) &&& 31) ||| dn := by
  apply Nat.eq_of_testBit_eq
  intro i
  have h31 : (31 : Nat) = 2 ^ 5 - 1 := by norm_num
  simp only [h31, Nat.testBit_land, Nat.testBit_lor, Nat.testBit_shiftLeft,
    Nat.testBit_shiftRight, Nat.testBit_two_pow_sub_one]
  rcases Nat.lt_or_ge i 5 with hi | hi
  · have e1 : decide (18 + i ≥ 14) = true := by rw [decide_eq_true_eq]; omega
    have e2 : decide (18 + i ≥ 18) = true := by rw [decide_eq_true_eq]; omega
    have e3 : decide (i < 5) = true := by rw [decide_eq_true_eq]; omega
    have e4 : 18 + i - 18 = i := by omega
    have e5 : mn.testBit (18 + i - 14) = false :=
      Nat.testBit_eq_false_of_lt
        (lt_of_lt_of_le hm (by
          calc (16 : Nat) = 2 ^ 4 := by norm_num
          _ ≤ 2 ^ (18 + i - 14) := Nat.pow_le_pow_right (by omega) (by omega)))
    simp only [e1, e2, e3, e4, e5, Bool.true_and, Bool.false_and, Bool.and_true,
      Bool.or_false]
  · have e3 : decide (i < 5) = false := by rw [decide_eq_false_iff_not]; omega
    have e5 : dn.testBit i = false :=
      Nat.testBit_eq_false_of_lt
        (lt_of_lt_of_le hd (by
          calc (32 : Nat) = 2 ^ 5 := by norm_num
          _ ≤ 2 ^ i := Nat.pow_le_pow_right (by omega) hi))
    simp [e3, e5]

/-- The packed word of `Date.MarshalBinary` for a date with in-range
fields, with the `uint32` truncations discharged. -/
theorem marshal_word_eq (y m dd : Int)
    (hy1 : 0 ≤ y) (hy2 : y < 4294967296) (hm1 : 1 ≤ m) (hm2 : m ≤ 12)
    (hd1 : 1 ≤ dd) (hd2 : dd ≤ 31) :
    (uint32ofInt y |||
      (uint32ofInt m <<< 14) % 4294967296 |||
      (uint32ofInt dd <<< 18) % 4294967296) =
      (y.toNat ||| m.toNat <<< 14 ||| dd.toNat <<< 18) := by
  have ey : uint32ofInt y = y.toNat := by unfold uint32ofInt; omega
  have em : uint32ofInt m = m.toNat := by unfold uint32ofInt; omega
  have ed : uint32ofInt dd = dd.toNat := by unfold uint32ofInt; omega
  have esm : m.toNat <<< 14 % 4294967296 = m.toNat <<< 14 := by
    rw [Nat.shiftLeft_eq]
    have : (2 : Nat) ^ 14 = 16384 := by norm_num
    rw [this]
    apply Nat.mod_eq_of_lt
    omega
  have esd : dd.toNat <<< 18 % 4294967296 = dd.toNat <<< 18 := by
    rw [Nat.shiftLeft_eq]
    have : (2 : Nat) ^ 18 = 262144 := by norm_num
    rw [this]
    apply Nat.mod_eq_of_lt
    omega
  rw [ey, em, ed, esm, esd]

theorem packed_lt (yn mn dn : Nat) (hy : yn < 4294967296) (hm : mn < 16)
    (hd : dn < 32) :
    yn ||| mn <<< 14 ||| dn <<< 18 < 4294967296 := by
  apply lor_lt_two_pow_32
  · apply lor_lt_two_pow_32 _ _ hy
    rw [Nat.shiftLeft_eq]
    have : (2 : Nat) ^ 14 = 16384 := by norm_num
    omega
  · rw [Nat.shiftLeft_eq]
    have : (2 : Nat) ^ 18 = 262144 := by norm_num
    omega

theorem leWord_le32 (w : Nat) (h : w < 4294967296) : leWord (le32 w) = w := by
  unfold leWord le32
  simp only [List.getD_cons_zero, List.getD_cons_succ]
  omega

/-- Binary round-trip through the codec, before any mask simplification:
marshalling a normalized date and unmarshalling the four bytes rebuilds
the date from the three shift-and-mask bit fields of the packed word. -/
theorem binary_roundtrip_word (y m dd : Int)
    (hy1 : 0 ≤ y) (hy2 : y < 4294967296) (hm1 : 1 ≤ m) (hm2 : m ≤ 12)
    (hd1 : 1 ≤ dd) (hd2 : dd ≤ 31) :
    Date.UnmarshalBinary (Date.MarshalBinary ⟨⟨y, m, dd, 0, 0, 0, 0, 0⟩⟩) =
      Except.ok (NewDate
        (Int.ofNat ((y.toNat ||| m.toNat <<< 14 ||| dd.toNat <<< 18) &&& 16383))
        (Int.ofNat (((y.toNat ||| m.toNat <<< 14 ||| dd.toNat <<< 18) >>> 14) &&& 15))
        (Int.ofNat (((y.toNat ||| m.toNat <<< 14 ||| dd.toNat <<< 18) >>> 18) &&& 31))) := by
  have hw := marshal_word_eq y m dd hy1 hy2 hm1 hm2 hd1 hd2
  have hlt := packed_lt y.toNat m.toNat dd.toNat (by omega) (by omega) (by omega)
  show Date.UnmarshalBinary (le32 (uint32ofInt y |||
    (uint32ofInt m <<< 14) % 4294967296 |||
    (uint32ofInt dd <<< 18) % 4294967296)) = _
  rw [hw]
  unfold Date.UnmarshalBinary
  rw [if_neg (by simp [le32])]
  rw [leWord_le32 _ hlt]

/-- C1: for every valid date with year in 0..16383, month 1..12 and a day
consistent with that month, `UnmarshalBinary` applied to the output of
`MarshalBinary` yields a `Date` equal to the original. -/
theorem C1_date_binary_roundtrip (y m dd : Int)
    (hy1 : 0 ≤ y) (hy2 : y ≤ 16383) (hm1 : 1 ≤ m) (hm2 : m ≤ 12)
    (hd1 : 1 ≤ dd) (hd2 : dd ≤ daysInMonth y m) :
    Date.UnmarshalBinary (Date.MarshalBinary (NewDate y m dd)) =
      Except.ok (NewDate y m dd) := by
  have hb := daysInMonth_bounds y m
  have hnew : NewDate y m dd = ⟨⟨y, m, dd, 0, 0, 0, 0, 0⟩⟩ :=
    congrArg Date.mk (stdDate_of_valid y m dd 0 0 0 0 0 hm1 hm2 hd1 hd2
      (by omega) (by omega) (by omega) (by omega) (by omega) (by omega)
      (by omega) (by omega))
  rw [hnew, binary_roundtrip_word y m dd hy1 (by omega) hm1 hm2 hd1 (by omega)]
  have hy14 : y.toNat >>> 14 = 0 := by
    rw [Nat.shiftRight_eq_div_pow]
    have : (2 : Nat) ^ 14 = 16384 := by norm_num
    omega
  have hy18 : y.toNat >>> 18 = 0 := by
    rw [Nat.shiftRight_eq_div_pow]
    have : (2 : Nat) ^ 18 = 262144 := by norm_num
    omega
  have e1 : (y.toNat ||| m.toNat <<< 14 ||| dd.toNat <<< 18) &&& 16383 = y.toNat := by
    rw [mask14_lor]
    have h16383 : (16383 : Nat) = 2 ^ 14 - 1 := by norm_num
    rw [h16383, Nat.and_pow_two_sub_one_eq_mod]
    have : (2 : Nat) ^ 14 = 16384 := by norm_num
    omega
  have e2 : ((y.toNat ||| m.toNat <<< 14 ||| dd.toNat <<< 18) >>> 14) &&& 15 = m.toNat := by
    rw [mask_shift14_lor _ _ _ (by omega), hy14]
    simp
  have e3 : ((y.toNat ||| m.toNat <<< 14 ||| dd.toNat <<< 18) >>> 18) &&& 31 = dd.toNat := by
    rw [mask_shift18_lor _ _ _ (by omega) (by omega), hy18]
    simp
  rw [e1, e2, e3]
  have r1 : Int.ofNat y.toNat = y := Int.toNat_of_nonneg hy1
  have r2 : Int.ofNat m.toNat = m := Int.toNat_of_nonneg (by omega)
  have r3 : Int.ofNat dd.toNat = dd := Int.toNat_of_nonneg (by omega)
  rw [r1, r2, r3, hnew]

/-- Witness for `C1_date_binary_roundtrip` at 2024-02-29. -/
theorem C1_date_binary_roundtrip_witness :
    Date.UnmarshalBinary (Date.MarshalBinary (NewDate 2024 2 29)) =
      Except.ok (NewDate 2024 2 29) :=
  C1_date_binary_roundtrip 2024 2 29 (by omega) (by omega) (by omega) (by omega)
    (by omega) (by decide)

/-- The packed word is below `2^23` when the year fits 14 bits. -/
theorem packed_lt_23 (yn mn dn : Nat) (hy : yn < 16384) (hm : mn < 16)
    (hd : dn < 32) :
    yn ||| mn <<< 14 ||| dn <<< 18 < 8388608 := by
  have hp : (2 : Nat) ^ 23 = 8388608 := by norm_num
  rw [← hp]
  apply lor_lt_two_pow
  · apply lor_lt_two_pow
    · norm_num; omega
    · rw [Nat.shiftLeft_eq]
      have : (2 : Nat) ^ 14 = 16384 := by norm_num
      norm_num
      omega
  · rw [Nat.shiftLeft_eq]
    have : (2 : Nat) ^ 18 = 262144 := by norm_num
    norm_num
    omega

/-- C3: `MarshalBinary` always yields exactly 4 bytes; for a date whose
year fits the 14-bit field, the little-endian word packs year, month and
day at bit offsets 0, 14 and 18 (and nothing above bit 22);
`UnmarshalBinary` errors exactly on inputs that are not 4 bytes, and on a
4-byte input recovers the fields by shifting by 0/14/18 and masking with
0x3FFF/0xF/0x1F. -/
theorem C3_binary_format (d : Date) (h : d.Inv) :
    d.MarshalBinary.length = 4 ∧
    (0 ≤ d.t.year → d.t.year ≤ 16383 →
      leWord d.MarshalBinary % 16384 = d.t.year.toNat ∧
      leWord d.MarshalBinary / 16384 % 16 = d.t.month.toNat ∧
      leWord d.MarshalBinary / 262144 % 32 = d.t.day.toNat ∧
      leWord d.MarshalBinary < 8388608) ∧
    (∀ data : List Nat, (∃ e, Date.UnmarshalBinary data = Except.error e) ↔
      data.length ≠ 4) ∧
    (∀ data : List Nat, data.length = 4 →
      Date.UnmarshalBinary data = Except.ok (NewDate
        (Int.ofNat (leWord data &&& 16383))
        (Int.ofNat ((leWord data >>> 14) &&& 15))
        (Int.ofNat ((leWord data >>> 18) &&& 31)))) := by
  obtain ⟨⟨hm1, hm2, hd1, hdim⟩, -⟩ := h
  have hb := daysInMonth_bounds d.t.year d.t.month
  refine ⟨by simp [Date.MarshalBinary, le32], ?_, ?_, ?_⟩
  · intro hy1 hy2
    have hw := marshal_word_eq d.t.year d.t.month d.t.day hy1 (by omega)
      hm1 hm2 hd1 (by omega)
    have hlt := packed_lt_23 d.t.year.toNat d.t.month.toNat d.t.day.toNat
      (by omega) (by omega) (by omega)
    show leWord (le32 _) % 16384 = _ ∧ leWord (le32 _) / 16384 % 16 = _ ∧
      leWord (le32 _) / 262144 % 32 = _ ∧ leWord (le32 _) < 8388608
    rw [hw, leWord_le32 _ (by omega)]
    have hy14 : d.t.year.toNat >>> 14 = 0 := by
      rw [Nat.shiftRight_eq_div_pow]
      have : (2 : Nat) ^ 14 = 16384 := by norm_num
      omega
    have hy18 : d.t.year.toNat >>> 18 = 0 := by
      rw [Nat.shiftRight_eq_div_pow]
      have : (2 : Nat) ^ 18 = 262144 := by norm_num
      omega
    have hq14 : (2 : Nat) ^ 14 = 16384 := by norm_num
    have hq18 : (2 : Nat) ^ 18 = 262144 := by norm_num
    have hq4 : (2 : Nat) ^ 4 = 16 := by norm_num
    have hq5 : (2 : Nat) ^ 5 = 32 := by norm_num
    refine ⟨?_, ?_, ?_, hlt⟩
    · have e1 := mask14_lor d.t.year.toNat d.t.month.toNat d.t.day.toNat
      have h16383 : (16383 : Nat) = 2 ^ 14 - 1 := by norm_num
      rw [h16383, Nat.and_pow_two_sub_one_eq_mod, Nat.and_pow_two_sub_one_eq_mod,
        hq14] at e1
      omega
    · have e2 := mask_shift14_lor d.t.year.toNat d.t.month.toNat d.t.day.toNat
        (by omega)
      rw [hy14] at e2
      have h15 : (15 : Nat) = 2 ^ 4 - 1 := by norm_num
      rw [h15, Nat.and_pow_two_sub_one_eq_mod, hq4] at e2
      rw [Nat.shiftRight_eq_div_pow, hq14] at e2
      simp at e2
      omega
    · have e3 := mask_shift18_lor d.t.year.toNat d.t.month.toNat d.t.day.toNat
        (by omega) (by omega)
      rw [hy18] at e3
      have h31 : (31 : Nat) = 2 ^ 5 - 1 := by norm_num
      rw [h31, Nat.and_pow_two_sub_one_eq_mod, hq5] at e3
      rw [Nat.shiftRight_eq_div_pow, hq18] at e3
      simp at e3
      omega
  · intro data
    by_cases hl : data.length = 4
    · simp [Date.UnmarshalBinary, hl]
    · simp [Date.UnmarshalBinary, hl]
  · intro data hl
    unfold Date.UnmarshalBinary
    rw [if_neg (by omega)]

/-- Witness for `C3_binary_format` at 2000-01-02. -/
theorem C3_binary_format_witness :
    (NewDate 2000 1 2).Inv ∧
      ((NewDate 2000 1 2).MarshalBinary.length = 4 ∧
        leWord (NewDate 2000 1 2).MarshalBinary % 16384 = 2000) := by
  have h : (NewDate 2000 1 2).Inv := by decide
  have hc := C3_binary_format (NewDate 2000 1 2) h
  refine ⟨h, hc.1, ?_⟩
  have := (hc.2.1 (by decide) (by decide)).1
  rw [this]
  decide

/-- C9 (amended): for a valid date whose year needs more than 14 bits,
the round trip wraps the year modulo 16384, but the high year bits are
also bitwise-or-ed into the month and day fields, so month and day come
back as `m ||| bits 14..17 of the year` and `d ||| bits 18..22 of the
year` (then calendar-normalized by `NewDate`). -/
theorem C9_binary_year_wrap (y m dd : Int)
    (hy1 : 16384 ≤ y) (hy2 : y < 4294967296) (hm1 : 1 ≤ m) (hm2 : m ≤ 12)
    (hd1 : 1 ≤ dd) (hd2 : dd ≤ daysInMonth y m) :
    Date.UnmarshalBinary (Date.MarshalBinary (NewDate y m dd)) =
      Except.ok (NewDate (y % 16384)
        (Int.ofNat (m.toNat ||| ((y.toNat >>> 14) &&& 15)))
        (Int.ofNat (dd.toNat ||| ((y.toNat >>> 18) &&& 31)))) := by
  have hb := daysInMonth_bounds y m
  have hnew : NewDate y m dd = ⟨⟨y, m, dd, 0, 0, 0, 0, 0⟩⟩ :=
    congrArg Date.mk (stdDate_of_valid y m dd 0 0 0 0 0 hm1 hm2 hd1 hd2
      (by omega) (by omega) (by omega) (by omega) (by omega) (by omega)
      (by omega) (by omega))
  rw [hnew, binary_roundtrip_word y m dd (by omega) (by omega) hm1 hm2 hd1 (by omega)]
  have e1 : (y.toNat ||| m.toNat <<< 14 ||| dd.toNat <<< 18) &&& 16383 =
      y.toNat % 16384 := by
    rw [mask14_lor]
    have h16383 : (16383 : Nat) = 2 ^ 14 - 1 := by norm_num
    rw [h16383, Nat.and_pow_two_sub_one_eq_mod]
  have e2 : ((y.toNat ||| m.toNat <<< 14 ||| dd.toNat <<< 18) >>> 14) &&& 15 =
      (y.toNat >>> 14) &&& 15 ||| m.toNat :=
    mask_shift14_lor _ _ _ (by omega)
  have e3 : ((y.toNat ||| m.toNat <<< 14 ||| dd.toNat <<< 18) >>> 18) &&& 31 =
      (y.toNat >>> 18) &&& 31 ||| dd.toNat :=
    mask_shift18_lor _ _ _ (by omega) (by omega)
  rw [e1, e2, e3, Nat.lor_comm ((y.toNat >>> 14) &&& 15) m.toNat,
    Nat.lor_comm ((y.toNat >>> 18) &&& 31) dd.toNat]
  have ey : Int.ofNat (y.toNat % 16384) = y % 16384 := by
    show ((y.toNat % 16384 : Nat) : Int) = y % 16384
    omega
  rw [ey]

/-- Witness for `C9_binary_year_wrap` at year 16385, January 1. -/
theorem C9_binary_year_wrap_witness :
    Date.UnmarshalBinary (Date.MarshalBinary (NewDate 16385 1 1)) =
      Except.ok (NewDate (16385 % 16384)
        (Int.ofNat ((1 : Int).toNat ||| (((16385 : Int).toNat >>> 14) &&& 15)))
        (Int.ofNat ((1 : Int).toNat ||| (((16385 : Int).toNat >>> 18) &&& 31)))) :=
  C9_binary_year_wrap 16385 1 1 (by omega) (by omega) (by omega) (by omega)
    (by omega) (by decide)

/-- C9, the claim as frozen, is false: the valid date 16384-02-01 round
trips to 0000-03-01, not to year `16384 % 16384 = 0` with month 2 and day
1 unchanged, because bit 14 of the year lands in the month field. -/
theorem C9_counterexample :
    Date.UnmarshalBinary (Date.MarshalBinary (NewDate 16384 2 1)) =
      Except.ok (NewDate 0 3 1) ∧ NewDate 0 3 1 ≠ NewDate 0 2 1 := by
  constructor
  · rfl
  · decide

/-! ## Month arithmetic (`AddMonthsNoOverflow`) -/

theorem stdDate_zero_clock (y m d : Int) :
    stdDate y m d 0 0 0 0 0 =
      ⟨(normDay (normMonth y m).1 (normMonth y m).2 d).1,
       (normDay (normMonth y m).1 (normMonth y m).2 d).2.1,
       (normDay (normMonth y m).1 (normMonth y m).2 d).2.2, 0, 0, 0, 0, 0⟩ := by
  unfold stdDate
  norm_num

theorem nextMonth_month_range (y m : Int) (hm1 : 1 ≤ m) (hm2 : m ≤ 12) :
    1 ≤ (nextMonth y m).2 ∧ (nextMonth y m).2 ≤ 12 := by
  unfold nextMonth
  by_cases h : m = 12
  · rw [if_pos h]; omega
  · rw [if_neg h]; show 1 ≤ m + 1 ∧ m + 1 ≤ 12; omega

theorem prevMonth_nextMonth_fst (y m : Int) (hm1 : 1 ≤ m) (hm2 : m ≤ 12) :
    (prevMonth (nextMonth y m).1 (nextMonth y m).2).1 = y := by
  by_cases h : m = 12
  · subst h
    have h2 : ((1 : Int) = 1) = True := by simp
    simp [nextMonth, prevMonth]
  · have h2 : ¬ ((m + 1 : Int) = 1) := by omega
    simp [nextMonth, prevMonth, h, h2]

theorem prevMonth_nextMonth_snd (y m : Int) (hm1 : 1 ≤ m) (hm2 : m ≤ 12) :
    (prevMonth (nextMonth y m).1 (nextMonth y m).2).2 = m := by
  by_cases h : m = 12
  · subst h
    simp [nextMonth, prevMonth]
  · have h2 : ¬ ((m + 1 : Int) = 1) := by omega
    simp [nextMonth, prevMonth, h, h2]

/-- The naive month shift `time.Date(y, m+n, dd, 0, ..., UTC)` lands on
day `dd` of the intended target month when `dd` fits, and otherwise rolls
over into the following month by the day excess. -/
theorem addMonths_core (y m dd n : Int) (hm1 : 1 ≤ m) (hm2 : m ≤ 12)
    (hd1 : 1 ≤ dd) (hd31 : dd ≤ 31) :
    (dd ≤ daysInMonth (normMonth y (m + n)).1 (normMonth y (m + n)).2 →
      stdDate y (m + n) dd 0 0 0 0 0 =
        ⟨(normMonth y (m + n)).1, (normMonth y (m + n)).2, dd, 0, 0, 0, 0, 0⟩) ∧
    (daysInMonth (normMonth y (m + n)).1 (normMonth y (m + n)).2 < dd →
      stdDate y (m + n) dd 0 0 0 0 0 =
        ⟨(nextMonth (normMonth y (m + n)).1 (normMonth y (m + n)).2).1,
         (nextMonth (normMonth y (m + n)).1 (normMonth y (m + n)).2).2,
         dd - daysInMonth (normMonth y (m + n)).1 (normMonth y (m + n)).2,
         0, 0, 0, 0, 0⟩) := by
  have hrange := normMonth_month_range y (m + n)
  have hbt := daysInMonth_bounds (normMonth y (m + n)).1 (normMonth y (m + n)).2
  rw [stdDate_zero_clock]
  constructor
  · intro hfits
    rw [normDay_of_range _ _ _ hd1 hfits]
  · intro hover
    rw [normDay_carry _ _ _ hrange.1 hrange.2 hover (by omega)]

/-- C2: `AddMonthsNoOverflow n` adds `n` months (also negative `n`): when
the naive addition keeps the day of month it returns the naive result,
and whenever the naive day differs from the original (equivalently: the
intended target month is shorter than the original day) it returns the
last day of the intended target month.  In particular
2024-01-31 + 1 = 2024-02-29, 2024-03-31 + 1 = 2024-04-30 and
2024-03-31 - 1 = 2024-02-29. -/
theorem C2_add_months_no_overflow (d : Date) (n : Int) (h : d.Inv) :
    ((d.AddDate 0 n 0).Day = d.Day → d.AddMonthsNoOverflow n = d.AddDate 0 n 0) ∧
    ((d.AddDate 0 n 0).Day ≠ d.Day → d.AddMonthsNoOverflow n =
      NewDate (normMonth d.t.year (d.t.month + n)).1
        (normMonth d.t.year (d.t.month + n)).2
        (daysInMonth (normMonth d.t.year (d.t.month + n)).1
          (normMonth d.t.year (d.t.month + n)).2)) ∧
    ((d.AddDate 0 n 0).Day ≠ d.Day ↔
      daysInMonth (normMonth d.t.year (d.t.month + n)).1
        (normMonth d.t.year (d.t.month + n)).2 < d.t.day) ∧
    (NewDate 2024 1 31).AddMonthsNoOverflow 1 = NewDate 2024 2 29 ∧
    (NewDate 2024 3 31).AddMonthsNoOverflow 1 = NewDate 2024 4 30 ∧
    (NewDate 2024 3 31).AddMonthsNoOverflow (-1) = NewDate 2024 2 29 := by
  obtain ⟨⟨hm1, hm2, hd1, hdim⟩, hh, hmin, hs, hns, hoff⟩ := h
  have hb := daysInMonth_bounds d.t.year d.t.month
  have hrange := normMonth_month_range d.t.year (d.t.month + n)
  have hbt := daysInMonth_bounds (normMonth d.t.year (d.t.month + n)).1
    (normMonth d.t.year (d.t.month + n)).2
  have hAdd : d.t.AddDate 0 n 0 = stdDate d.t.year (d.t.month + n) d.t.day 0 0 0 0 0 := by
    unfold StdTime.AddDate
    rw [hh, hmin, hs, hns, hoff]
    norm_num
  have hcore := addMonths_core d.t.year d.t.month d.t.day n hm1 hm2 hd1 (by omega)
  by_cases hfits : d.t.day ≤ daysInMonth (normMonth d.t.year (d.t.month + n)).1
      (normMonth d.t.year (d.t.month + n)).2
  · -- the naive addition already lands on the same day of month
    have hnaive : d.AddDate 0 n 0 =
        ⟨⟨(normMonth d.t.year (d.t.month + n)).1,
          (normMonth d.t.year (d.t.month + n)).2, d.t.day, 0, 0, 0, 0, 0⟩⟩ := by
      show DateFromStdTime (d.t.AddDate 0 n 0) = _
      rw [hAdd, hcore.1 hfits]
      unfold DateFromStdTime
      exact congrArg Date.mk (stdDate_of_valid _ _ _ 0 0 0 0 0 hrange.1 hrange.2
        hd1 hfits (by omega) (by omega) (by omega) (by omega) (by omega)
        (by omega) (by omega) (by omega))
    have hday : (d.AddDate 0 n 0).Day = d.Day := by rw [hnaive]; rfl
    refine ⟨fun _ => ?_, fun hne => absurd hday hne, ?_, by decide, by decide, by decide⟩
    · show (if d.Day ≠ (d.AddDate 0 n 0).Day then _ else d.AddDate 0 n 0) = d.AddDate 0 n 0
      rw [if_neg (by rw [hday]; simp)]
    · constructor
      · intro hne; exact absurd hday hne
      · intro hlt; exact absurd hfits (by omega)
  · -- the naive addition overflowed into the following month
    push_neg at hfits
    have hnaive : d.AddDate 0 n 0 =
        ⟨⟨(nextMonth (normMonth d.t.year (d.t.month + n)).1
            (normMonth d.t.year (d.t.month + n)).2).1,
          (nextMonth (normMonth d.t.year (d.t.month + n)).1
            (normMonth d.t.year (d.t.month + n)).2).2,
          d.t.day - daysInMonth (normMonth d.t.year (d.t.month + n)).1
            (normMonth d.t.year (d.t.month + n)).2, 0, 0, 0, 0, 0⟩⟩ := by
      show DateFromStdTime (d.t.AddDate 0 n 0) = _
      rw [hAdd, hcore.2 hfits]
      unfold DateFromStdTime
      dsimp only
      have hnr := nextMonth_month_range (normMonth d.t.year (d.t.month + n)).1
        (normMonth d.t.year (d.t.month + n)).2 hrange.1 hrange.2
      have hbn := daysInMonth_bounds
        (nextMonth (normMonth d.t.year (d.t.month + n)).1
          (normMonth d.t.year (d.t.month + n)).2).1
        (nextMonth (normMonth d.t.year (d.t.month + n)).1
          (normMonth d.t.year (d.t.month + n)).2).2
      exact congrArg Date.mk (stdDate_of_valid _ _ _ 0 0 0 0 0 hnr.1 hnr.2
        (by omega) (by omega) (by omega) (by omega) (by omega) (by omega)
        (by omega) (by omega) (by omega) (by omega))
    have hday : (d.AddDate 0 n 0).Day =
        d.t.day - daysInMonth (normMonth d.t.year (d.t.month + n)).1
          (normMonth d.t.year (d.t.month + n)).2 := by rw [hnaive]; rfl
    have hne : (d.AddDate 0 n 0).Day ≠ d.Day := by
      rw [hday]; show _ ≠ d.t.day; omega
    refine ⟨fun heq => absurd heq hne, fun _ => ?_, ?_, by decide, by decide, by decide⟩
    · show (if d.Day ≠ (d.AddDate 0 n 0).Day then
        (d.AddDate 0 n 0).PreviousMonthLastDay else _) = _
      rw [if_pos (by rw [hday]; show ¬ d.t.day = _ ; omega)]
      show NewDate (d.AddDate 0 n 0).t.year (d.AddDate 0 n 0).t.month 0 = _
      rw [hnaive]
      show NewDate (nextMonth _ _).1 (nextMonth _ _).2 0 = _
      have hnr := nextMonth_month_range (normMonth d.t.year (d.t.month + n)).1
        (normMonth d.t.year (d.t.month + n)).2 hrange.1 hrange.2
      have hp1 := prevMonth_nextMonth_fst (normMonth d.t.year (d.t.month + n)).1
        (normMonth d.t.year (d.t.month + n)).2 hrange.1 hrange.2
      have hp2 := prevMonth_nextMonth_snd (normMonth d.t.year (d.t.month + n)).1
        (normMonth d.t.year (d.t.month + n)).2 hrange.1 hrange.2
      unfold NewDate
      rw [stdDate_zero_clock, normMonth_of_range _ _ hnr.1 hnr.2]
      dsimp only
      rw [normDay_borrow _ _ 0 hnr.1 hnr.2 (by omega) (by rw [hp1, hp2]; omega)]
      rw [hp1, hp2]
      rw [stdDate_zero_clock, normMonth_of_range _ _ hrange.1 hrange.2]
      dsimp only
      rw [normDay_of_range _ _ _ (by omega) (by omega), zero_add]
    · exact ⟨fun _ => hfits, fun _ => hne⟩

/-- Witness for `C2_add_months_no_overflow` at 2024-01-31 plus one
month. -/
theorem C2_add_months_no_overflow_witness :
    (NewDate 2024 1 31).Inv ∧
      ((NewDate 2024 1 31).AddDate 0 1 0).Day ≠ (NewDate 2024 1 31).Day ∧
      (NewDate 2024 1 31).AddMonthsNoOverflow 1 =
        NewDate (normMonth (NewDate 2024 1 31).t.year
            ((NewDate 2024 1 31).t.month + 1)).1
          (normMonth (NewDate 2024 1 31).t.year
            ((NewDate 2024 1 31).t.month + 1)).2
          (daysInMonth (normMonth (NewDate 2024 1 31).t.year
              ((NewDate 2024 1 31).t.month + 1)).1
            (normMonth (NewDate 2024 1 31).t.year
              ((NewDate 2024 1 31).t.month + 1)).2) := by
  have h : (NewDate 2024 1 31).Inv := by decide
  have hc := C2_add_months_no_overflow (NewDate 2024 1 31) 1 h
  have hne : ((NewDate 2024 1 31).AddDate 0 1 0).Day ≠ (NewDate 2024 1 31).Day := by
    decide
  exact ⟨h, hne, hc.2.1 hne⟩

/-! ## Scan error handling and the parameter-dropping constructors -/

/-- C6 (code bug): the Go body of `NewTime` passes `time.UTC` to
`time.Date` and never uses its `loc` parameter, so the constructed value
is independent of `loc` and its zone is always UTC (offset 0); in
particular a caller-supplied +02:00 zone is not carried. -/
theorem C6_new_time_ignores_loc :
    (∀ hour minute second nsec loc : Int,
      NewTime hour minute second nsec loc = NewTime hour minute second nsec 0) ∧
    (NewTime 3 4 5 0 7200).ZoneOffset = 0 ∧
    (NewTime 3 4 5 0 7200).ZoneOffset ≠ 7200 := by
  refine ⟨fun _ _ _ _ _ => rfl, rfl, by decide⟩

/-- C8: a nil `Scan` input resets `Date` and `Time` to their zero values
without error, while `DateTime.Scan` has no nil case and reports a scan
type error naming `<nil>`; an unsupported dynamic type makes all three
report an error naming that type. -/
theorem C8_scan_nil_and_type_errors :
    Date.Scan SQLValue.null = Except.ok ⟨StdTime.zero⟩ ∧
    Time.Scan SQLValue.null = Except.ok ⟨StdTime.zero⟩ ∧
    DateTime.Scan SQLValue.null =
      Except.error (failedScanTypeDateTime (SQLValue.null.goTypeName)) ∧
    (∀ n : String, Date.Scan (SQLValue.other n) =
      Except.error (failedScanTypeDate n)) ∧
    (∀ n : String, Time.Scan (SQLValue.other n) =
      Except.error (failedScanTypeTime n)) ∧
    (∀ n : String, DateTime.Scan (SQLValue.other n) =
      Except.error (failedScanTypeDateTime n)) ∧
    (∀ n : String, failedScanTypeDate n = "failed to scan type " ++ n ++ " into date") :=
  ⟨rfl, rfl, rfl, fun _ => rfl, fun _ => rfl, fun _ => rfl, fun _ => rfl⟩

/-- C10 (code bug): the Go body of `TimeFromLayoutLocation` parses with
the fixed canonical `timeLayout` and never uses its `layout` parameter,
so the result is independent of the layout argument; in particular a
string matching the caller-supplied layout `15:04:05` fails to parse
(because the canonical layout demands a zone suffix), while only input in
the canonical layout succeeds. -/
theorem C10_from_layout_location_ignores_layout :
    (∀ layout1 layout2 s : List Char, ∀ loc : Int,
      TimeFromLayoutLocation layout1 s loc = TimeFromLayoutLocation layout2 s loc) ∧
    TimeFromLayoutLocation ("15:04:05".data) ("03:04:05".data) 0 =
      Except.error failedParseTime ∧
    TimeFromLayoutLocation ("15:04:05".data) ("03:04:05Z".data) 0 =
      Except.ok ⟨⟨0, 1, 1, 3, 4, 5, 0, 0⟩⟩ :=
  ⟨fun _ _ _ _ => rfl, rfl, rfl⟩

/-! ## Projection invariants (fixed reference calendar / zero clock) -/

theorem fromInstant_validClock (nanos offset : Int) :
    (StdTime.fromInstant nanos offset).ValidClock := by
  unfold StdTime.fromInstant StdTime.ValidClock
  dsimp only
  omega

theorem TimeFromStdTime_ref_calendar (t : StdTime) (h : t.ValidClock) :
    (TimeFromStdTime t).t.year = 0 ∧ (TimeFromStdTime t).t.month = 1 ∧
    (TimeFromStdTime t).t.day = 1 := by
  obtain ⟨h1, h2, h3, h4, h5, h6, h7, h8⟩ := h
  unfold TimeFromStdTime
  rw [stdDate_of_valid 0 1 1 _ _ _ _ _ (by omega) (by omega) (by omega)
    (by decide) h1 h2 h3 h4 h5 h6 h7 h8]
  exact ⟨rfl, rfl, rfl⟩

theorem DateFromStdTime_zero_clock (t : StdTime) :
    (DateFromStdTime t).t.hour = 0 ∧ (DateFromStdTime t).t.minute = 0 ∧
    (DateFromStdTime t).t.second = 0 ∧ (DateFromStdTime t).t.nsec = 0 ∧
    (DateFromStdTime t).t.offset = 0 := by
  unfold DateFromStdTime
  rw [stdDate_zero_clock]
  exact ⟨rfl, rfl, rfl, rfl, rfl⟩

/-- C5 (amended): the projecting constructors do pin the orthogonal axis:
a `Time` built from any instant (via `TimeFromStdTime` or the Unix
constructors) carries the fixed reference calendar date year 0, January 1,
and a `Date` built from any instant carries the fixed zero clock in UTC;
`NewTime` with in-range clock components likewise.  (The zone-conversion
operations are excluded: see the counterexample.) -/
theorem C5_projection_invariants :
    (∀ t : StdTime, t.ValidClock →
      (TimeFromStdTime t).t.year = 0 ∧ (TimeFromStdTime t).t.month = 1 ∧
      (TimeFromStdTime t).t.day = 1) ∧
    (∀ sec nsec : Int,
      (TimeFromUnix sec nsec).t.year = 0 ∧ (TimeFromUnix sec nsec).t.month = 1 ∧
      (TimeFromUnix sec nsec).t.day = 1) ∧
    (∀ hour minute second nsec loc : Int,
      0 ≤ hour → hour ≤ 23 → 0 ≤ minute → minute ≤ 59 →
      0 ≤ second → second ≤ 59 → 0 ≤ nsec → nsec ≤ 999999999 →
      (NewTime hour minute second nsec loc).t.year = 0 ∧
      (NewTime hour minute second nsec loc).t.month = 1 ∧
      (NewTime hour minute second nsec loc).t.day = 1) ∧
    (∀ t : StdTime,
      (DateFromStdTime t).t.hour = 0 ∧ (DateFromStdTime t).t.minute = 0 ∧
      (DateFromStdTime t).t.second = 0 ∧ (DateFromStdTime t).t.nsec = 0 ∧
      (DateFromStdTime t).t.offset = 0) ∧
    (∀ sec nsec : Int,
      (DateFromUnix sec nsec).t.hour = 0 ∧ (DateFromUnix sec nsec).t.minute = 0 ∧
      (DateFromUnix sec nsec).t.second = 0 ∧ (DateFromUnix sec nsec).t.nsec = 0 ∧
      (DateFromUnix sec nsec).t.offset = 0) := by
  refine ⟨TimeFromStdTime_ref_calendar, ?_, ?_, DateFromStdTime_zero_clock, ?_⟩
  · intro sec nsec
    exact TimeFromStdTime_ref_calendar _ (fromInstant_validClock _ _)
  · intro hour minute second nsec loc hh1 hh2 hm1 hm2 hs1 hs2 hn1 hn2
    unfold NewTime
    rw [stdDate_of_valid 0 1 1 _ _ _ _ _ (by omega) (by omega) (by omega)
      (by decide) hh1 hh2 hm1 hm2 hs1 hs2 hn1 hn2]
    exact ⟨rfl, rfl, rfl⟩
  · intro sec nsec
    exact DateFromStdTime_zero_clock _

/-- Witness for `C5_projection_invariants`: projecting the instant
2001-02-03 04:05:06.7 +01:00 to a `Time` fixes the calendar and to a
`Date` zeroes the clock. -/
theorem C5_projection_invariants_witness :
    (TimeFromStdTime ⟨2001, 2, 3, 4, 5, 6, 700000000, 3600⟩).t.year = 0 ∧
    (DateFromStdTime ⟨2001, 2, 3, 4, 5, 6, 700000000, 3600⟩).t.hour = 0 :=
  ⟨(C5_projection_invariants.1 ⟨2001, 2, 3, 4, 5, 6, 700000000, 3600⟩
      (by decide)).1,
   (C5_projection_invariants.2.2.2.1 ⟨2001, 2, 3, 4, 5, 6, 700000000, 3600⟩).1⟩

set_option maxRecDepth 100000 in
/-- C5, the claim as frozen, is false for values reached through the
zone-conversion operation `In`: re-expressing the time of day 23:00 UTC
in a +02:00 zone moves the wall calendar to January 2 of year 0, so not
every reachable `Time` keeps the fixed reference calendar date. -/
theorem C5_counterexample :
    ((NewTime 23 0 0 0 0).In 7200).t.day = 2 := by decide

/-! ## Text round-trip lemmas -/

theorem digitVal_digitChar (x : Nat) (h : x < 10) :
    digitVal (digitChar x) = some x := by
  interval_cases x <;> decide

theorem parse2_pad2 (n : Nat) (h : n ≤ 99) (rest : List Char) :
    parse2 (pad2 n ++ rest) = some ((n : Int), rest) := by
  unfold pad2
  simp only [List.cons_append, List.nil_append]
  simp only [parse2]
  rw [digitVal_digitChar _ (by omega), digitVal_digitChar _ (by omega)]
  have e : ((10 * (n / 10 % 10) + n % 10 : Nat) : Int) = (n : Int) := by omega
  simp only [e]

theorem parse4_pad4 (n : Nat) (h : n ≤ 9999) (rest : List Char) :
    parse4 (pad4 n ++ rest) = some ((n : Int), rest) := by
  unfold pad4
  simp only [List.cons_append, List.nil_append]
  simp only [parse4]
  rw [digitVal_digitChar _ (by omega), digitVal_digitChar _ (by omega),
    digitVal_digitChar _ (by omega), digitVal_digitChar _ (by omega)]
  have e : ((1000 * (n / 1000 % 10) + 100 * (n / 100 % 10) + 10 * (n / 10 % 10) +
      n % 10 : Nat) : Int) = (n : Int) := by omega
  simp only [e]

theorem parseChar_cons (c : Char) (rest : List Char) :
    parseChar c (c :: rest) = some rest := by
  simp [parseChar]

theorem parseZoneColon_format (off : Int) (hmod : off % 60 = 0)
    (hlo : -86340 ≤ off) (hhi : off ≤ 86340) (rest : List Char) :
    parseZoneColon (formatZoneColon off ++ rest) = some (off, rest) := by
  by_cases h0 : off = 0
  · subst h0; rfl
  · unfold formatZoneColon
    rw [if_neg h0]
    have hh99 : off.natAbs / 60 / 60 ≤ 99 := by omega
    have hm99 : off.natAbs / 60 % 60 ≤ 99 := by omega
    by_cases hneg : off < 0
    · rw [if_pos hneg]
      simp only [List.cons_append, List.append_assoc]
      simp only [parseZoneColon]
      rw [if_pos (Or.inr trivial)]
      rw [parse2_pad2 _ hh99, Option.some_bind]
      simp only []
      rw [parseChar_cons, Option.some_bind]
      rw [parse2_pad2 _ hm99, Option.some_bind]
      simp only [if_true]
      have e : -((((off.natAbs / 60 / 60 : Nat)) : Int) * 3600 +
          (((off.natAbs / 60 % 60 : Nat)) : Int) * 60) = off := by omega
      rw [e, if_neg (show ¬ (('-' : Char) = 'Z') by decide)]
    · rw [if_neg hneg]
      simp only [List.cons_append, List.append_assoc]
      simp only [parseZoneColon]
      rw [if_pos (Or.inl trivial)]
      rw [parse2_pad2 _ hh99, Option.some_bind]
      simp only []
      rw [parseChar_cons, Option.some_bind]
      rw [parse2_pad2 _ hm99, Option.some_bind]
      rw [if_neg (show ¬ (('+' : Char) = '-') by decide)]
      have e : (((off.natAbs / 60 / 60 : Nat)) : Int) * 3600 +
          (((off.natAbs / 60 % 60 : Nat)) : Int) * 60 = off := by omega
      rw [e, if_neg (show ¬ (('+' : Char) = 'Z') by decide)]

theorem parseZoneHH_format (off : Int) (hmod : off % 3600 = 0)
    (hlo : -82800 ≤ off) (hhi : off ≤ 82800) (rest : List Char) :
    parseZoneHH (formatZoneHH off ++ rest) = some (off, rest) := by
  unfold formatZoneHH
  have hh99 : off.natAbs / 3600 ≤ 99 := by omega
  by_cases hneg : off < 0
  · rw [if_pos hneg]
    simp only [List.cons_append]
    simp only [parseZoneHH]
    rw [if_pos (Or.inr trivial)]
    rw [parse2_pad2 _ hh99, Option.some_bind]
    simp only [if_true]
    have e : -((((off.natAbs / 3600 : Nat)) : Int) * 3600) = off := by omega
    rw [e]
  · rw [if_neg hneg]
    simp only [List.cons_append]
    simp only [parseZoneHH]
    rw [if_pos (Or.inl trivial)]
    rw [parse2_pad2 _ hh99, Option.some_bind]
    rw [if_neg (show ¬ (('+' : Char) = '-') by decide)]
    have e : (((off.natAbs / 3600 : Nat)) : Int) * 3600 = off := by omega
    rw [e]

theorem stopsDigits_of_stopsFrac (l : List Char) (h : stopsFrac l) :
    stopsDigits l := by
  cases l with
  | nil => trivial
  | cons c r => exact h.2

theorem takeDigits_append (ds rest : List Char) (hall : allDigits ds)
    (hstop : stopsDigits rest) : takeDigits (ds ++ rest) = (ds, rest) := by
  induction ds with
  | nil =>
    cases rest with
    | nil => rfl
    | cons c r =>
      have hc : digitVal c = none := hstop
      simp [takeDigits, hc]
  | cons d ds ih =>
    have hd : (digitVal d).isSome := hall d (by simp)
    obtain ⟨v, hv⟩ := Option.isSome_iff_exists.mp hd
    have hall2 : allDigits ds := fun c hc => hall c (by simp [hc])
    simp [takeDigits, hv, ih hall2]

theorem digitsVal_foldl (l : List Char) (acc : Nat) :
    l.foldl (fun a c => 10 * a + (digitVal c).getD 0) acc =
      acc * 10 ^ l.length + digitsVal l := by
  induction l generalizing acc with
  | nil => simp [digitsVal]
  | cons c l ih =>
    unfold digitsVal
    simp only [List.foldl_cons, List.length_cons]
    rw [ih, ih ((10 * 0 + (digitVal c).getD 0))]
    ring

theorem digitsVal_append (a b : List Char) :
    digitsVal (a ++ b) = digitsVal a * 10 ^ b.length + digitsVal b := by
  unfold digitsVal
  rw [List.foldl_append]
  exact digitsVal_foldl b _

theorem digitsVal_replicate (z : Nat) :
    digitsVal (List.replicate z '0') = 0 := by
  induction z with
  | zero => rfl
  | succ z ih =>
    have h0 : (digitVal '0').getD 0 = 0 := by decide
    unfold digitsVal at ih ⊢
    rw [List.replicate_succ, List.foldl_cons, digitsVal_foldl]
    rw [digitsVal_foldl] at ih
    simp [h0] at ih ⊢
    unfold digitsVal at ih ⊢
    omega

theorem length_natDigitsFix (w n : Nat) : (natDigitsFix w n).length = w := by
  induction w generalizing n with
  | zero => rfl
  | succ w ih => simp [natDigitsFix, ih]

theorem allDigits_natDigitsFix (w n : Nat) : allDigits (natDigitsFix w n) := by
  induction w generalizing n with
  | zero => intro c hc; cases hc
  | succ w ih =>
    intro c hc
    unfold natDigitsFix at hc
    rcases List.mem_append.mp hc with h | h
    · exact ih _ c h
    · have : c = digitChar (n % 10) := by simpa using h
      subst this
      rw [digitVal_digitChar _ (by omega)]
      rfl

theorem digitsVal_natDigitsFix (w n : Nat) :
    digitsVal (natDigitsFix w n) = n % 10 ^ w := by
  induction w generalizing n with
  | zero => simp [natDigitsFix, digitsVal, Nat.mod_one]
  | succ w ih =>
    unfold natDigitsFix
    rw [digitsVal_append, ih]
    have hc : digitsVal [digitChar (n % 10)] = n % 10 := by
      unfold digitsVal
      simp [digitVal_digitChar _ (show n % 10 < 10 by omega)]
    rw [hc]
    simp only [List.length_singleton]
    have hpow : (10 : Nat) ^ (w + 1) = 10 * 10 ^ w := by ring
    rw [hpow, Nat.mod_mul]
    ring

theorem dropTrailZeros_decomp (l : List Char) :
    ∃ z, l = dropTrailZeros l ++ List.replicate z '0' := by
  induction l using List.reverseRecOn with
  | nil => exact ⟨0, rfl⟩
  | append_singleton l a ih =>
    obtain ⟨z, hz⟩ := ih
    by_cases ha : a = '0'
    · subst ha
      refine ⟨z + 1, ?_⟩
      have htrim : dropTrailZeros (l ++ ['0']) = dropTrailZeros l := by
        unfold dropTrailZeros
        rw [List.reverse_append]
        simp [List.dropWhile_cons]
      rw [htrim]
      conv_lhs => rw [hz]
      rw [List.append_assoc, List.replicate_succ']
    · refine ⟨0, ?_⟩
      have htrim : dropTrailZeros (l ++ [a]) = l ++ [a] := by
        unfold dropTrailZeros
        rw [List.reverse_append]
        simp [List.dropWhile_cons, ha]
      rw [htrim, List.replicate_zero, List.append_nil]

theorem allDigits_dropTrailZeros (l : List Char) (h : allDigits l) :
    allDigits (dropTrailZeros l) := by
  intro c hc
  apply h
  unfold dropTrailZeros at hc
  rw [List.mem_reverse] at hc
  have := (List.dropWhile_sublist _).mem hc
  rwa [List.mem_reverse] at this

theorem parseFracOpt_format (w : Nat) (hw1 : 1 ≤ w) (hw9 : w ≤ 9) (v : Nat)
    (hv : v < 10 ^ w) (rest : List Char) (hstop : stopsFrac rest) :
    parseFracOpt (formatFracW w v ++ rest) =
      some (((v * 10 ^ (9 - w) : Nat) : Int), rest) := by
  obtain ⟨z, hz⟩ := dropTrailZeros_decomp (natDigitsFix w v)
  have hlen := length_natDigitsFix w v
  have hlenz : (dropTrailZeros (natDigitsFix w v)).length + z = w := by
    have := congrArg List.length hz
    simp only [List.length_append, List.length_replicate] at this
    omega
  have hdvfix : digitsVal (natDigitsFix w v) = v := by
    rw [digitsVal_natDigitsFix]
    exact Nat.mod_eq_of_lt hv
  have hdvz : digitsVal (dropTrailZeros (natDigitsFix w v)) * 10 ^ z = v := by
    conv_rhs => rw [← hdvfix]
    conv_rhs => rw [hz]
    rw [digitsVal_append, digitsVal_replicate, List.length_replicate]
    omega
  by_cases hempty : dropTrailZeros (natDigitsFix w v) = []
  · have hv0 : v = 0 := by
      rw [hempty] at hdvz
      simp [digitsVal] at hdvz
      omega
    subst hv0
    have hfmt : formatFracW w 0 = [] := by
      unfold formatFracW
      rw [hempty]
      rfl
    rw [hfmt, List.nil_append]
    cases rest with
    | nil => simp [parseFracOpt]
    | cons c r =>
      simp only [parseFracOpt]
      rw [if_neg hstop.1]
      norm_num
  · have hfmt : formatFracW w v = '.' :: dropTrailZeros (natDigitsFix w v) := by
      unfold formatFracW
      rw [if_neg (by simpa [List.isEmpty_iff] using hempty)]
    rw [hfmt]
    simp only [List.cons_append, parseFracOpt]
    rw [if_pos trivial]
    have htake : takeDigits (dropTrailZeros (natDigitsFix w v) ++ rest) =
        (dropTrailZeros (natDigitsFix w v), rest) :=
      takeDigits_append _ _
        (allDigits_dropTrailZeros _ (allDigits_natDigitsFix w v))
        (stopsDigits_of_stopsFrac rest hstop)
    rw [htake]
    dsimp only
    have hlpos : 0 < (dropTrailZeros (natDigitsFix w v)).length :=
      List.length_pos.mpr hempty
    rw [if_neg (by
      simp only [not_or]
      constructor
      · omega
      · omega)]
    have hval : digitsVal (dropTrailZeros (natDigitsFix w v)) *
        10 ^ (9 - (dropTrailZeros (natDigitsFix w v)).length) = v * 10 ^ (9 - w) := by
      have he : 9 - (dropTrailZeros (natDigitsFix w v)).length = (9 - w) + z := by
        omega
      rw [he, pow_add]
      have hsw : digitsVal (dropTrailZeros (natDigitsFix w v)) *
          (10 ^ (9 - w) * 10 ^ z) =
          digitsVal (dropTrailZeros (natDigitsFix w v)) * 10 ^ z * 10 ^ (9 - w) := by
        ring
      rw [hsw, hdvz]
    rw [hval]

theorem stopsFrac_formatZoneHH (off : Int) (r : List Char) :
    stopsFrac (formatZoneHH off ++ r) := by
  unfold formatZoneHH
  by_cases h : off < 0
  · rw [if_pos h]; exact ⟨by decide, by decide⟩
  · rw [if_neg h]; exact ⟨by decide, by decide⟩

theorem stopsFrac_formatZoneColon (off : Int) (r : List Char) :
    stopsFrac (formatZoneColon off ++ r) := by
  unfold formatZoneColon
  by_cases h0 : off = 0
  · rw [if_pos h0]; exact ⟨by decide, by decide⟩
  · rw [if_neg h0]
    by_cases h : off < 0
    · rw [if_pos h]; exact ⟨by decide, by decide⟩
    · rw [if_neg h]; exact ⟨by decide, by decide⟩

theorem parseDateFields_format (t : StdTime) (hy1 : 0 ≤ t.year)
    (hy2 : t.year ≤ 9999) (hm1 : 0 ≤ t.month) (hm2 : t.month ≤ 99)
    (hd1 : 0 ≤ t.day) (hd2 : t.day ≤ 99) (rest : List Char) :
    parseDateFields (formatDateLayout t ++ rest) =
      some ((t.year, t.month, t.day), rest) := by
  have cy : ((t.year.toNat : Nat) : Int) = t.year := Int.toNat_of_nonneg hy1
  have cm : ((t.month.toNat : Nat) : Int) = t.month := Int.toNat_of_nonneg hm1
  have cd : ((t.day.toNat : Nat) : Int) = t.day := Int.toNat_of_nonneg hd1
  unfold formatDateLayout parseDateFields
  simp only [List.append_assoc, List.cons_append]
  simp only [parse4_pad4 _ (show t.year.toNat ≤ 9999 by omega),
    parse2_pad2 _ (show t.month.toNat ≤ 99 by omega),
    parse2_pad2 _ (show t.day.toNat ≤ 99 by omega),
    parseChar_cons, Option.some_bind]
  rw [cy, cm, cd]

theorem parseClockFields_format (t : StdTime) (hvc : t.ValidClock)
    (rest : List Char) :
    parseClockFields (formatClock t ++ rest) =
      some ((t.hour, t.minute, t.second), rest) := by
  obtain ⟨h1, h2, h3, h4, h5, h6, h7, h8⟩ := hvc
  have ch : ((t.hour.toNat : Nat) : Int) = t.hour := Int.toNat_of_nonneg h1
  have cm : ((t.minute.toNat : Nat) : Int) = t.minute := Int.toNat_of_nonneg h3
  have cs : ((t.second.toNat : Nat) : Int) = t.second := Int.toNat_of_nonneg h5
  unfold formatClock parseClockFields
  simp only [List.append_assoc, List.cons_append]
  simp only [parse2_pad2 _ (show t.hour.toNat ≤ 99 by omega),
    parse2_pad2 _ (show t.minute.toNat ≤ 99 by omega),
    parse2_pad2 _ (show t.second.toNat ≤ 99 by omega),
    parseChar_cons, Option.some_bind]
  rw [ch, cm, cs]

theorem parseQuoted_wrap (p : List Char → Option StdTime) (body : List Char) :
    parseQuoted p ('"' :: (body ++ ['"'])) = p body := by
  simp only [parseQuoted]
  rw [if_pos trivial]
  rw [List.reverse_append]
  simp only [List.reverse_cons, List.reverse_nil, List.nil_append,
    List.cons_append]
  rw [if_pos trivial, List.reverse_reverse]

theorem parseDateLayout_format (t : StdTime) (hvd : t.ValidDate)
    (hy1 : 0 ≤ t.year) (hy2 : t.year ≤ 9999) :
    parseDateLayout (formatDateLayout t) =
      some ⟨t.year, t.month, t.day, 0, 0, 0, 0, 0⟩ := by
  obtain ⟨hm1, hm2, hd1, hd2⟩ := hvd
  have hb := daysInMonth_bounds t.year t.month
  unfold parseDateLayout
  conv_lhs => rw [← List.append_nil (formatDateLayout t)]
  rw [parseDateFields_format t hy1 hy2 (by omega) (by omega) (by omega)
    (by omega) [], Option.some_bind]
  dsimp only
  rw [if_pos ⟨rfl, by unfold fieldsInRange; omega⟩]

theorem parseTimeLayout_format (t : StdTime) (hvc : t.ValidClock)
    (hmod : t.offset % 60 = 0) (hlo : -86340 ≤ t.offset)
    (hhi : t.offset ≤ 86340) :
    parseTimeLayout (formatTimeLayout t) =
      some ⟨0, 1, 1, t.hour, t.minute, t.second, 0, t.offset⟩ := by
  have hvc2 := hvc
  obtain ⟨h1, h2, h3, h4, h5, h6, h7, h8⟩ := hvc2
  unfold parseTimeLayout formatTimeLayout
  rw [parseClockFields_format t hvc _, Option.some_bind]
  dsimp only
  conv_lhs => rw [← List.append_nil (formatZoneColon t.offset)]
  rw [parseZoneColon_format t.offset hmod hlo hhi [], Option.some_bind]
  dsimp only
  have hdim : daysInMonth 0 1 = 31 := by decide
  rw [if_pos ⟨rfl, by unfold fieldsInRange; omega⟩]

theorem parseTimeSQL_format (t : StdTime) (hvc : t.ValidClock)
    (hns : t.nsec % 1000 = 0) (hmod : t.offset % 3600 = 0)
    (hlo : -82800 ≤ t.offset) (hhi : t.offset ≤ 82800) :
    parseTimeSQL (formatTimeSQL t) =
      some ⟨0, 1, 1, t.hour, t.minute, t.second, t.nsec, t.offset⟩ := by
  have hvc2 := hvc
  obtain ⟨h1, h2, h3, h4, h5, h6, h7, h8⟩ := hvc2
  unfold parseTimeSQL formatTimeSQL
  rw [List.append_assoc]
  rw [parseClockFields_format t hvc _, Option.some_bind]
  dsimp only
  have hs : stopsFrac (formatZoneHH t.offset) := by
    rw [← List.append_nil (formatZoneHH t.offset)]
    exact stopsFrac_formatZoneHH t.offset []
  rw [parseFracOpt_format 6 (by omega) (by omega) (t.nsec / 1000).toNat
    (by omega) (formatZoneHH t.offset) hs, Option.some_bind]
  dsimp only
  conv_lhs => rw [← List.append_nil (formatZoneHH t.offset)]
  rw [parseZoneHH_format t.offset hmod hlo hhi [], Option.some_bind]
  dsimp only
  have hdim : daysInMonth 0 1 = 31 := by decide
  rw [if_pos ⟨rfl, by unfold fieldsInRange; omega⟩]
  have hc : (((t.nsec / 1000).toNat * 10 ^ (9 - 6) : Nat) : Int) = t.nsec := by
    have h9 : ((t.nsec / 1000).toNat : Int) = t.nsec / 1000 :=
      Int.toNat_of_nonneg (by omega)
    push_cast [h9]
    omega
  rw [hc]

theorem parseDateTimeSQL_format (t : StdTime) (hv : t.Valid)
    (hy1 : 0 ≤ t.year) (hy2 : t.year ≤ 9999)
    (hmod : t.offset % 3600 = 0) (hlo : -82800 ≤ t.offset)
    (hhi : t.offset ≤ 82800) :
    parseDateTimeSQL (formatDateTimeSQL t) =
      some ⟨t.year, t.month, t.day, t.hour, t.minute, t.second, 0,
        t.offset⟩ := by
  have hvc := hv.2
  obtain ⟨⟨hm1, hm2, hd1, hd2⟩, h1, h2, h3, h4, h5, h6, h7, h8⟩ := hv
  have hb := daysInMonth_bounds t.year t.month
  unfold parseDateTimeSQL formatDateTimeSQL
  simp only [List.append_assoc, List.cons_append]
  rw [parseDateFields_format t hy1 hy2 (by omega) (by omega) (by omega)
    (by omega) _, Option.some_bind]
  dsimp only
  rw [parseChar_cons, Option.some_bind]
  rw [parseClockFields_format t hvc _, Option.some_bind]
  dsimp only
  conv_lhs => rw [← List.append_nil (formatZoneHH t.offset)]
  rw [parseZoneHH_format t.offset hmod hlo hhi [], Option.some_bind]
  dsimp only
  rw [if_pos ⟨rfl, by unfold fieldsInRange; omega⟩]

theorem parseRFC3339_format (t : StdTime) (hv : t.Valid)
    (hy1 : 0 ≤ t.year) (hy2 : t.year ≤ 9999)
    (hmod : t.offset % 60 = 0) (hlo : -86340 ≤ t.offset)
    (hhi : t.offset ≤ 86340) :
    parseRFC3339 (formatRFC3339Nano t) =
      some ⟨t.year, t.month, t.day, t.hour, t.minute, t.second, t.nsec,
        t.offset⟩ := by
  have hvc := hv.2
  obtain ⟨⟨hm1, hm2, hd1, hd2⟩, h1, h2, h3, h4, h5, h6, h7, h8⟩ := hv
  have hb := daysInMonth_bounds t.year t.month
  unfold parseRFC3339 formatRFC3339Nano
  simp only [List.append_assoc, List.cons_append]
  rw [parseDateFields_format t hy1 hy2 (by omega) (by omega) (by omega)
    (by omega) _, Option.some_bind]
  dsimp only
  rw [parseChar_cons, Option.some_bind]
  rw [parseClockFields_format t hvc _, Option.some_bind]
  dsimp only
  have hs : stopsFrac (formatZoneColon t.offset) := by
    rw [← List.append_nil (formatZoneColon t.offset)]
    exact stopsFrac_formatZoneColon t.offset []
  rw [parseFracOpt_format 9 (by omega) (by omega) t.nsec.toNat (by omega)
    (formatZoneColon t.offset) hs, Option.some_bind]
  dsimp only
  conv_lhs => rw [← List.append_nil (formatZoneColon t.offset)]
  rw [parseZoneColon_format t.offset hmod hlo hhi [], Option.some_bind]
  dsimp only
  rw [if_pos ⟨rfl, by unfold fieldsInRange; omega⟩]
  have hc : ((t.nsec.toNat * 10 ^ (9 - 9) : Nat) : Int) = t.nsec := by
    have h9 : (t.nsec.toNat : Int) = t.nsec := Int.toNat_of_nonneg h7
    push_cast [h9]
    omega
  rw [hc]

theorem Date_eta (d : Date) (hinv : d.Inv) :
    (⟨⟨d.t.year, d.t.month, d.t.day, 0, 0, 0, 0, 0⟩⟩ : Date) = d := by
  obtain ⟨hvd, hh, hmi, hs, hn, ho⟩ := hinv
  cases d with
  | mk u =>
    cases u
    dsimp only at hh hmi hs hn ho ⊢
    rw [hh, hmi, hs, hn, ho]

theorem Time_eta (t : Time) (hinv : t.Inv) :
    (⟨⟨0, 1, 1, t.t.hour, t.t.minute, t.t.second, t.t.nsec,
      t.t.offset⟩⟩ : Time) = t := by
  obtain ⟨hy, hm, hd, hvc⟩ := hinv
  cases t with
  | mk u =>
    cases u
    dsimp only at hy hm hd ⊢
    rw [hy, hm, hd]

theorem Date_text_roundtrip (d : Date) (hinv : d.Inv) (hy1 : 0 ≤ d.t.year)
    (hy2 : d.t.year ≤ 9999) :
    Date.UnmarshalText d.MarshalText = Except.ok d := by
  have heta := Date_eta d hinv
  obtain ⟨hvd, hh, hmi, hs, hn, ho⟩ := hinv
  have hb := daysInMonth_bounds d.t.year d.t.month
  obtain ⟨hm1, hm2, hd1, hd2⟩ := hvd
  unfold Date.MarshalText Date.String Date.UnmarshalText
  rw [parseDateLayout_format d.t ⟨hm1, hm2, hd1, hd2⟩ hy1 hy2]
  unfold DateFromStdTime
  dsimp only
  rw [stdDate_of_valid _ _ _ _ _ _ _ _ hm1 hm2 hd1 hd2 (by omega) (by omega)
    (by omega) (by omega) (by omega) (by omega) (by omega) (by omega)]
  rw [heta]

theorem Date_json_roundtrip (d : Date) (hinv : d.Inv) (hy1 : 0 ≤ d.t.year)
    (hy2 : d.t.year ≤ 9999) :
    Date.UnmarshalJSON d.MarshalJSON = Except.ok d := by
  have heta := Date_eta d hinv
  obtain ⟨hvd, hh, hmi, hs, hn, ho⟩ := hinv
  have hb := daysInMonth_bounds d.t.year d.t.month
  obtain ⟨hm1, hm2, hd1, hd2⟩ := hvd
  unfold Date.MarshalJSON Date.String Date.UnmarshalJSON
  rw [parseQuoted_wrap]
  rw [parseDateLayout_format d.t ⟨hm1, hm2, hd1, hd2⟩ hy1 hy2]
  unfold DateFromStdTime
  dsimp only
  rw [stdDate_of_valid _ _ _ _ _ _ _ _ hm1 hm2 hd1 hd2 (by omega) (by omega)
    (by omega) (by omega) (by omega) (by omega) (by omega) (by omega)]
  rw [heta]

theorem Date_sql_roundtrip (d : Date) (hinv : d.Inv) (hy1 : 0 ≤ d.t.year)
    (hy2 : d.t.year ≤ 9999) :
    Date.Scan (SQLValue.str d.Value) = Except.ok d := by
  have heta := Date_eta d hinv
  obtain ⟨hvd, hh, hmi, hs, hn, ho⟩ := hinv
  obtain ⟨hm1, hm2, hd1, hd2⟩ := hvd
  unfold Date.Value Date.Scan
  dsimp only
  rw [parseDateLayout_format d.t ⟨hm1, hm2, hd1, hd2⟩ hy1 hy2]
  dsimp only
  rw [heta]

theorem Time_text_roundtrip (t : Time) (hinv : t.Inv) (hns : t.t.nsec = 0)
    (hmod : t.t.offset % 60 = 0) (hlo : -86340 ≤ t.t.offset)
    (hhi : t.t.offset ≤ 86340) :
    Time.UnmarshalText t.MarshalText = Except.ok t := by
  have heta := Time_eta t hinv
  obtain ⟨hy, hm, hd, hvc⟩ := hinv
  unfold Time.MarshalText Time.String Time.UnmarshalText
  rw [parseTimeLayout_format t.t hvc hmod hlo hhi]
  dsimp only
  rw [hns] at heta
  rw [heta]

theorem Time_json_roundtrip (t : Time) (hinv : t.Inv) (hns : t.t.nsec = 0)
    (hmod : t.t.offset % 60 = 0) (hlo : -86340 ≤ t.t.offset)
    (hhi : t.t.offset ≤ 86340) :
    Time.UnmarshalJSON t.MarshalJSON = Except.ok t := by
  have heta := Time_eta t hinv
  obtain ⟨hy, hm, hd, hvc⟩ := hinv
  unfold Time.MarshalJSON Time.String Time.UnmarshalJSON
  rw [parseQuoted_wrap]
  rw [parseTimeLayout_format t.t hvc hmod hlo hhi]
  dsimp only
  rw [hns] at heta
  rw [heta]

theorem Time_sql_roundtrip (t : Time) (hinv : t.Inv)
    (hns : t.t.nsec % 1000 = 0) (hmod : t.t.offset % 3600 = 0)
    (hlo : -82800 ≤ t.t.offset) (hhi : t.t.offset ≤ 82800) :
    Time.Scan (SQLValue.str t.Value) = Except.ok t := by
  have heta := Time_eta t hinv
  obtain ⟨hy, hm, hd, hvc⟩ := hinv
  unfold Time.Value Time.Scan
  dsimp only
  rw [parseTimeSQL_format t.t hvc hns hmod hlo hhi]
  dsimp only
  rw [heta]

theorem DateTime_text_roundtrip (d : DateTime) (hinv : d.Inv)
    (hy1 : 0 ≤ d.t.year) (hy2 : d.t.year ≤ 9999)
    (hmod : d.t.offset % 60 = 0) (hlo : -86340 ≤ d.t.offset)
    (hhi : d.t.offset ≤ 86340) :
    Except.bind (DateTime.MarshalText d) DateTime.UnmarshalText =
      Except.ok d := by
  unfold DateTime.MarshalText
  rw [if_neg (by omega)]
  show DateTime.UnmarshalText (formatRFC3339Nano d.t) = Except.ok d
  unfold DateTime.UnmarshalText
  rw [parseRFC3339_format d.t hinv hy1 hy2 hmod hlo hhi]

theorem DateTime_json_roundtrip (d : DateTime) (hinv : d.Inv)
    (hy1 : 0 ≤ d.t.year) (hy2 : d.t.year ≤ 9999)
    (hmod : d.t.offset % 60 = 0) (hlo : -86340 ≤ d.t.offset)
    (hhi : d.t.offset ≤ 86340) :
    Except.bind (DateTime.MarshalJSON d) DateTime.UnmarshalJSON =
      Except.ok d := by
  have hcond : ¬ (d.t.year < 0 ∨ 10000 ≤ d.t.year) := by omega
  simp only [DateTime.MarshalJSON, if_neg hcond, Except.bind,
    DateTime.UnmarshalJSON]
  rw [parseQuoted_wrap]
  rw [parseRFC3339_format d.t hinv hy1 hy2 hmod hlo hhi]

theorem DateTime_sql_roundtrip (d : DateTime) (hinv : d.Inv)
    (hy1 : 0 ≤ d.t.year) (hy2 : d.t.year ≤ 9999) (hns : d.t.nsec = 0)
    (hmod : d.t.offset % 3600 = 0) (hlo : -82800 ≤ d.t.offset)
    (hhi : d.t.offset ≤ 82800) :
    DateTime.Scan (SQLValue.str d.Value) = Except.ok d := by
  have heta : (⟨⟨d.t.year, d.t.month, d.t.day, d.t.hour, d.t.minute,
      d.t.second, 0, d.t.offset⟩⟩ : DateTime) = d := by
    cases d with
    | mk u =>
      cases u
      dsimp only at hns ⊢
      rw [hns]
  unfold DateTime.Value DateTime.Scan
  dsimp only
  rw [parseDateTimeSQL_format d.t hinv hy1 hy2 hmod hlo hhi]
  dsimp only
  rw [heta]

/-- C4: round-trip of the text, JSON and SQL codecs.  The claim as stated
holds only on the region each layout can represent: `Date` needs its year
in 0..9999; `Time` text/JSON drop the nanoseconds and the SQL layout
keeps only whole microseconds and whole zone hours; `DateTime` text/JSON
need the year in 0..9999 and a whole-minute zone, and its SQL layout
additionally drops sub-second precision and keeps only whole zone hours.
On that region every codec reproduces the original value exactly. -/
theorem C4_roundtrips :
    (∀ d : Date, d.Inv → 0 ≤ d.t.year → d.t.year ≤ 9999 →
      Date.UnmarshalText d.MarshalText = Except.ok d ∧
      Date.UnmarshalJSON d.MarshalJSON = Except.ok d ∧
      Date.Scan (SQLValue.str d.Value) = Except.ok d) ∧
    (∀ t : Time, t.Inv → t.t.nsec = 0 → t.t.offset % 60 = 0 →
      -86340 ≤ t.t.offset → t.t.offset ≤ 86340 →
      Time.UnmarshalText t.MarshalText = Except.ok t ∧
      Time.UnmarshalJSON t.MarshalJSON = Except.ok t) ∧
    (∀ t : Time, t.Inv → t.t.nsec % 1000 = 0 → t.t.offset % 3600 = 0 →
      -82800 ≤ t.t.offset → t.t.offset ≤ 82800 →
      Time.Scan (SQLValue.str t.Value) = Except.ok t) ∧
    (∀ d : DateTime, d.Inv → 0 ≤ d.t.year → d.t.year ≤ 9999 →
      d.t.offset % 60 = 0 → -86340 ≤ d.t.offset → d.t.offset ≤ 86340 →
      Except.bind (DateTime.MarshalText d) DateTime.UnmarshalText =
        Except.ok d ∧
      Except.bind (DateTime.MarshalJSON d) DateTime.UnmarshalJSON =
        Except.ok d) ∧
    (∀ d : DateTime, d.Inv → 0 ≤ d.t.year → d.t.year ≤ 9999 →
      d.t.nsec = 0 → d.t.offset % 3600 = 0 → -82800 ≤ d.t.offset →
      d.t.offset ≤ 82800 →
      DateTime.Scan (SQLValue.str d.Value) = Except.ok d) :=
  ⟨fun d h h1 h2 => ⟨Date_text_roundtrip d h h1 h2,
      Date_json_roundtrip d h h1 h2, Date_sql_roundtrip d h h1 h2⟩,
   fun t h hn hm hl hh => ⟨Time_text_roundtrip t h hn hm hl hh,
      Time_json_roundtrip t h hn hm hl hh⟩,
   fun t h hn hm hl hh => Time_sql_roundtrip t h hn hm hl hh,
   fun d h h1 h2 hm hl hh => ⟨DateTime_text_roundtrip d h h1 h2 hm hl hh,
      DateTime_json_roundtrip d h h1 h2 hm hl hh⟩,
   fun d h h1 h2 hn hm hl hh =>
      DateTime_sql_roundtrip d h h1 h2 hn hm hl hh⟩

/-- Witness: the C4 round-trips at concrete values of all three types. -/
theorem C4_roundtrips_witness :
    Date.UnmarshalText (NewDate 2000 6 15).MarshalText =
      Except.ok (NewDate 2000 6 15) ∧
    Time.UnmarshalJSON (NewTime 23 4 5 0 0).MarshalJSON =
      Except.ok (NewTime 23 4 5 0 0) ∧
    Time.Scan (SQLValue.str (NewTime 3 4 5 123456000 0).Value) =
      Except.ok (NewTime 3 4 5 123456000 0) ∧
    Except.bind
        (DateTime.MarshalJSON (NewDateTime 2021 12 31 23 4 5 123456789 3600))
        DateTime.UnmarshalJSON =
      Except.ok (NewDateTime 2021 12 31 23 4 5 123456789 3600) ∧
    DateTime.Scan
        (SQLValue.str (NewDateTime 2021 12 31 23 4 5 0 3600).Value) =
      Except.ok (NewDateTime 2021 12 31 23 4 5 0 3600) :=
  ⟨(C4_roundtrips.1 (NewDate 2000 6 15) (by decide) (by decide)
      (by decide)).1,
   (C4_roundtrips.2.1 (NewTime 23 4 5 0 0) (by decide) (by decide)
      (by decide) (by decide) (by decide)).2,
   C4_roundtrips.2.2.1 (NewTime 3 4 5 123456000 0) (by decide) (by decide)
      (by decide) (by decide) (by decide),
   (C4_roundtrips.2.2.2.1 (NewDateTime 2021 12 31 23 4 5 123456789 3600)
      (by decide) (by decide) (by decide) (by decide) (by decide)
      (by decide)).2,
   C4_roundtrips.2.2.2.2 (NewDateTime 2021 12 31 23 4 5 0 3600) (by decide)
      (by decide) (by decide) (by decide) (by decide) (by decide)
      (by decide)⟩

/-- Counterexample to the unrestricted C4 claim: the `DateTime` SQL layout
carries no fractional second, so a value with `nsec = 500000000` scans
back as a different instant. -/
theorem C4_counterexample :
    DateTime.Scan
        (SQLValue.str (NewDateTime 2000 1 2 3 4 5 500000000 0).Value) =
      Except.ok ⟨⟨2000, 1, 2, 3, 4, 5, 0, 0⟩⟩ ∧
    DateTime.Equal ⟨⟨2000, 1, 2, 3, 4, 5, 0, 0⟩⟩
        (NewDateTime 2000 1 2 3 4 5 500000000 0) = false :=
  ⟨by rfl, by decide⟩

/-- C7: which runtime kinds each `Scan` accepts.  int64 and float64 are
accepted by all three types; strings and byte slices are accepted exactly
when the SQL layout parses; a native `time.Time` is accepted and
projected by `Date` and `Time` but is a type error for `DateTime`; any
other dynamic type is an error naming the type. -/
theorem C7_scan_kinds :
    (∀ v : Int,
      scanOk (Date.Scan (SQLValue.int64 v)) ∧
      scanOk (Time.Scan (SQLValue.int64 v)) ∧
      scanOk (DateTime.Scan (SQLValue.int64 v)) ∧
      scanOk (Date.Scan (SQLValue.float64 v)) ∧
      scanOk (Time.Scan (SQLValue.float64 v)) ∧
      scanOk (DateTime.Scan (SQLValue.float64 v))) ∧
    (∀ s : List Char, ∀ u : StdTime, parseDateLayout s = some u →
      Date.Scan (SQLValue.str s) = Except.ok ⟨u⟩ ∧
      Date.Scan (SQLValue.bytes s) = Except.ok ⟨u⟩) ∧
    (∀ s : List Char, ∀ u : StdTime, parseTimeSQL s = some u →
      Time.Scan (SQLValue.str s) = Except.ok ⟨u⟩ ∧
      Time.Scan (SQLValue.bytes s) = Except.ok ⟨u⟩) ∧
    (∀ s : List Char, ∀ u : StdTime, parseDateTimeSQL s = some u →
      DateTime.Scan (SQLValue.str s) = Except.ok ⟨u⟩ ∧
      DateTime.Scan (SQLValue.bytes s) = Except.ok ⟨u⟩) ∧
    (∀ u : StdTime,
      Date.Scan (SQLValue.stdtime u) = Except.ok (DateFromStdTime u) ∧
      Time.Scan (SQLValue.stdtime u) = Except.ok (TimeFromStdTime u) ∧
      DateTime.Scan (SQLValue.stdtime u) =
        Except.error
          (failedScanTypeDateTime (SQLValue.stdtime u).goTypeName)) ∧
    (∀ n : String,
      Date.Scan (SQLValue.other n) = Except.error (failedScanTypeDate n) ∧
      Time.Scan (SQLValue.other n) = Except.error (failedScanTypeTime n) ∧
      DateTime.Scan (SQLValue.other n) =
        Except.error (failedScanTypeDateTime n)) := by
  refine ⟨fun v => ⟨⟨_, rfl⟩, ⟨_, rfl⟩, ⟨_, rfl⟩, ⟨_, rfl⟩, ⟨_, rfl⟩,
      ⟨_, rfl⟩⟩,
    fun s u h => ⟨?_, ?_⟩, fun s u h => ⟨?_, ?_⟩, fun s u h => ⟨?_, ?_⟩,
    fun u => ⟨rfl, rfl, rfl⟩, fun n => ⟨rfl, rfl, rfl⟩⟩
  all_goals simp only [Date.Scan, Time.Scan, DateTime.Scan, h]

/-- Witness: C7 at concrete inputs, including parses that succeed. -/
theorem C7_scan_kinds_witness :
    scanOk (Date.Scan (SQLValue.int64 86400)) ∧
    Date.Scan (SQLValue.str
        ['2', '0', '0', '0', '-', '0', '1', '-', '0', '2']) =
      Except.ok ⟨⟨2000, 1, 2, 0, 0, 0, 0, 0⟩⟩ ∧
    Time.Scan (SQLValue.bytes
        ['0', '3', ':', '0', '4', ':', '0', '5', '+', '0', '7']) =
      Except.ok ⟨⟨0, 1, 1, 3, 4, 5, 0, 25200⟩⟩ ∧
    DateTime.Scan (SQLValue.str
        ['2', '0', '0', '0', '-', '0', '1', '-', '0', '2', ' ',
         '0', '3', ':', '0', '4', ':', '0', '5', '+', '0', '7']) =
      Except.ok ⟨⟨2000, 1, 2, 3, 4, 5, 0, 25200⟩⟩ ∧
    DateTime.Scan (SQLValue.stdtime StdTime.zero) =
      Except.error
        (failedScanTypeDateTime
          (SQLValue.stdtime StdTime.zero).goTypeName) :=
  ⟨(C7_scan_kinds.1 86400).1,
   (C7_scan_kinds.2.1 _ _ (by rfl)).1,
   (C7_scan_kinds.2.2.1 _ _ (by rfl)).2,
   (C7_scan_kinds.2.2.2.1 _ _ (by rfl)).1,
   (C7_scan_kinds.2.2.2.2.1 StdTime.zero).2.2⟩

/-- Counterexample to the original C7 claim: `DateTime.Scan` rejects a
native `time.Time` value with a type error instead of accepting it, and
the nil special case of `Date.Scan` and `Time.Scan` succeeds (resetting
to the zero value) where `DateTime.Scan` errors. -/
theorem C7_counterexample :
    DateTime.Scan (SQLValue.stdtime ⟨2000, 1, 2, 3, 4, 5, 0, 0⟩) =
      Except.error
        (failedScanTypeDateTime
          (SQLValue.stdtime ⟨2000, 1, 2, 3, 4, 5, 0, 0⟩).goTypeName) ∧
    Date.Scan SQLValue.null = Except.ok ⟨StdTime.zero⟩ ∧
    Time.Scan SQLValue.null = Except.ok ⟨StdTime.zero⟩ ∧
    DateTime.Scan SQLValue.null =
      Except.error (failedScanTypeDateTime SQLValue.null.goTypeName) :=
  ⟨rfl, rfl, rfl, rfl⟩

end Chrono
